import Mathlib

/-!
Verification development for the commitDetective repository.

The TypeScript sources are shallowly embedded:
* JavaScript numbers are modelled as `ℚ` (exact arithmetic; binary floating
  point rounding is not modelled, and `x / 0` is `0` in `ℚ` where JS yields
  `NaN` — no theorem below relies on a division by zero).
* `async` methods that call the GitHub transport (`octokit`) become pure
  functions over an explicit oracle (`Octo`) that returns `Except` values;
  a `try`/`catch` in the source becomes a `match` on that `Except`.
* `Date.now()` / `new Date().toISOString()` become explicit clock
  parameters; `new Date(s).getTime()` (ISO-string parsing, a JS runtime
  builtin) becomes an uninterpreted environment function `parseDate`.
* Optional / nullable fields become `Option`; JS truthiness on strings
  (`""` is falsy) is modelled explicitly where the source relies on it.
-/

/-! ## JS string helpers shared by several source files -/

/-- Lower-cased character list of a string (models a JS `/i` regex test on
ASCII patterns). -/
def lowerChars (s : String) : List Char := s.data.map Char.toLower

/-- Contiguous-sublist (infix) test on character lists. -/
def listInfixCheck (pat : List Char) : List Char → Bool
  | [] => pat.isEmpty
  | c :: t => pat.isPrefixOf (c :: t) || listInfixCheck pat t

/-- Case-insensitive substring test, modelling `/pat/i.test(s)` for a literal
ASCII pattern `pat`. -/
def ciContainsStr (s pat : String) : Bool :=
  listInfixCheck (pat.data.map Char.toLower) (s.data.map Char.toLower)

/-- Case-sensitive substring test, modelling `/pat/.test(s)` for a literal
pattern. -/
def containsStr (s pat : String) : Bool := listInfixCheck pat.data s.data

/-- Numeric value of a digit run, modelling `parseInt(digits, 10)`. -/
def natOfDigits (ds : List Char) : Nat :=
  ds.foldl (fun acc c => acc * 10 + (c.toNat - ('0').toNat)) 0

/-- Leftmost-match scan for the regex `/\(#(\d+)\)/`: find the first position
where a literal `(#`, one or more digits and a closing `)` occur, and return
the parsed digit group.  Greedy `\d+` followed by `\)` matches exactly the
maximal digit run followed by `)`, so no further backtracking is needed. -/
def scanPrRef : List Char → Option Nat
  | [] => none
  | c :: rest =>
    if c = '(' then
      match rest with
      | '#' :: rest2 =>
        let ds := rest2.takeWhile Char.isDigit
        let after := rest2.dropWhile Char.isDigit
        if ds.length > 0 then
          match after with
          | ')' :: _ => some (natOfDigits ds)
          | _ => scanPrRef rest
        else scanPrRef rest
      | _ => scanPrRef rest
    else scanPrRef rest

/-- Embeds `extractPrNumberFromMessage` (analysis-depth-manager.ts) and
`parsePrNumberFromMessage` (analyze-commit-lineage.ts) both match the
message against `/\(#(\d+)\)/` and `parseInt` the first capture. -/
def extractPrNumberFromMessage (message : String) : Option Nat :=
  scanPrRef message.data

/-- The conventional-commit regex `/^[^:]+:\s*[^:]+$/` (anchored, no `/m`):
it matches exactly the strings that contain a single `:` which is neither
the first nor the last character (`[^:]+` before, and `\s*[^:]+` — all
colon-free — after, both non-empty). -/
def testConventionalCommit (message : String) : Bool :=
  message.data.count ':' == 1 &&
  message.data.head? != some ':' &&
  message.data.getLast? != some ':'

/-- JS truthiness of an optional string (`undefined`, `null` and `""` are
falsy). -/
def strOptTruthy : Option String → Bool
  | some s => s ≠ ""
  | none => false

/-- JS `[...new Set(l)]`: deduplicate keeping first occurrences in order. -/
def jsSetDedup (l : List String) : List String :=
  l.foldl (fun acc x => if acc.contains x then acc else acc ++ [x]) []

/-- JS `Number.prototype.toFixed(1)` on a non-negative number: round to one
decimal digit (half up) and print as `i.d`. -/
def toFixed1 (q : ℚ) : String :=
  let n : Int := ⌊q * 10 + 1 / 2⌋
  toString (n / 10) ++ "." ++ toString (n % 10)

/-! ## Data model (src/ai/tools/github-tools.ts, src/lib/types.ts) -/

/-- The `{ name, email, date }` author/committer object of a commit. -/
structure GitIdent where
  name : String
  email : String
  date : String
  deriving Repr, DecidableEq

/-- The nested `commit` payload of the `GitHubCommit` interface. -/
structure CommitPayload where
  author : Option GitIdent
  committer : Option GitIdent
  message : String
  deriving Repr, DecidableEq

/-- The `GitHubCommit` interface; `parents` keeps only the `sha` field of
each parent object, exactly as every use site (`p => p.sha`) does. -/
structure GitHubCommit where
  sha : String
  login : Option String
  commit : CommitPayload
  parents : List String
  deriving Repr, DecidableEq

/-- Embeds `PullRequestDetails`, with `head.ref` / `base.ref` flattened and the
`merged_by` login that the detector reads through an `any` cast. -/
structure PullRequestDetails where
  merged : Bool
  merge_commit_sha : Option String
  headRef : String
  baseRef : String
  baseSha : String
  merged_by : Option String
  deriving Repr, DecidableEq

/-- Embeds `TimelineEvent`, with the optional `merge_strategy` tag the events
detector reads through an `any` cast. -/
structure TimelineEvent where
  event : String
  created_at : String
  merge_strategy : Option String
  deriving Repr, DecidableEq

/-- The `PullRequestData` record returned by the gateway. -/
structure PullRequestData where
  prDetails : PullRequestDetails
  prCommits : List GitHubCommit
  mergeCommit : Option GitHubCommit
  timelineEvents : Option (List TimelineEvent)
  baseCommit : Option GitHubCommit
  deriving Repr, DecidableEq

/-- The error kinds of the GitHub transport (§6/§7 of the spec). -/
inductive GhError where
  | notFound
  | unauthorized
  | rateLimited
  | timeout
  | transport (msg : String)
  deriving Repr, DecidableEq

/-- Embeds `error.message` as read by the detectors' catch blocks. -/
def GhError.message : GhError → String
  | .notFound => "Not Found"
  | .unauthorized => "Unauthorized"
  | .rateLimited => "Rate limited"
  | .timeout => "Operation timed out after 30000ms"
  | .transport m => m

/-- Embeds `data.stats` of an octokit `repos.getCommit` response. -/
structure CommitStats where
  additions : Option Int
  deletions : Option Int
  total : Option Int
  deriving Repr, DecidableEq

/-- The part of an octokit `repos.getCommit` response that the detectors
read: `data.commit.tree.sha` and `data.stats`. -/
structure CommitDetailsData where
  treeSha : String
  stats : Option CommitStats
  deriving Repr, DecidableEq

/-- The octokit oracle used by the detector: `repos.getCommit` keyed by the
`ref` argument. -/
structure Octo where
  getCommit : String → Except GhError CommitDetailsData

/-- Environment for JS runtime builtins: `new Date(s).getTime()` for a
non-empty date string, and `new Date().toISOString()` — the current
wall-clock instant rendered as an ISO string. -/
structure JsEnv where
  parseDate : String → Int
  nowIso : String

/-- One algorithm verdict (`SquashDetectionResult` in src/lib/types.ts). -/
structure SquashDetectionResult where
  method : String
  confidence : ℚ
  isSquash : Bool
  reasoning : String
  evidence : List (String × String)
  weight : ℚ
  deriving Repr, DecidableEq

/-- Embeds `SquashAnalysisConfig` (src/lib/types.ts). -/
structure SquashAnalysisConfig where
  analysisDepth : String
  enabledMethods : List String
  confidenceThreshold : ℚ
  crossValidationRequired : Bool
  deriving Repr, DecidableEq

/-- The aggregate result of `detectSquash` / `crossValidateResults`. -/
structure AggResult where
  isSquash : Bool
  confidence : ℚ
  methods : List SquashDetectionResult
  reasoning : String
  deriving Repr, DecidableEq

/-! ## AdvancedSquashDetector (advanced-squash-detector.ts)

Evidence bags (`Record<string, any>`) are modelled as string key/value
lists; only the keys and the error messages are relied on by theorems, so
non-string evidence values are rendered with `toString`/`Repr`. -/

namespace AdvancedSquashDetector

/-- Embeds `analyzeSquashIndicatorsInMessage`: `.some` over the five squash
message patterns. -/
def analyzeSquashIndicatorsInMessage (message : String) : Bool :=
  ciContainsStr message "squash" ||
  (extractPrNumberFromMessage message).isSome ||
  testConventionalCommit message ||
  containsStr message "* " ||
  ciContainsStr message "co-authored-by:"

/-- Embeds `checkCommitsInMainBranch`: probe the first five commits with
`repos.getCommit` (the `baseBranch` argument is accepted but unused in the
actual octokit call, exactly as in the source) and collect the shas whose
fetch succeeded; a fetch error is swallowed by the inner catch. -/
def checkCommitsInMainBranch (octo : Octo) (commits : List GitHubCommit)
    (_repoOwner _repoName _baseBranch : String) : List String :=
  (commits.take 5).foldl
    (fun acc c =>
      match octo.getCommit c.sha with
      | .ok _ => acc ++ [c.sha]
      | .error _ => acc)
    []

/-- Method 1, `detectViaGitHubAPIStrategy`.  Within the embedding nothing in
the `try` block can throw (the octokit probes are caught one level down in
`checkCommitsInMainBranch`), so the outer catch path is not represented. -/
def detectViaGitHubAPIStrategy (octo : Octo) (prData : PullRequestData)
    (repoOwner repoName : String) : SquashDetectionResult :=
  if prData.prDetails.merged_by.isSome &&
     strOptTruthy prData.prDetails.merge_commit_sha then
    let mergeMessage := (prData.mergeCommit.map (fun c => c.commit.message)).getD ""
    let hasSquashIndicators := analyzeSquashIndicatorsInMessage mergeMessage
    let commitsInMainBranch :=
      checkCommitsInMainBranch octo prData.prCommits repoOwner repoName
        prData.prDetails.baseRef
    let isSquash := hasSquashIndicators && commitsInMainBranch.length == 0 &&
      prData.prCommits.length > 1
    { method := "github-api-strategy"
      confidence := if isSquash then 95/100 else 3/10
      isSquash := isSquash
      reasoning := if isSquash then
          "GitHub API indicates squash merge: merge commit exists, PR commits not in main branch, squash indicators in message"
        else "GitHub API does not indicate squash merge"
      evidence :=
        [("mergeCommitSha", (prData.prDetails.merge_commit_sha).getD ""),
         ("mergedBy", (prData.prDetails.merged_by).getD ""),
         ("hasSquashIndicators", toString hasSquashIndicators),
         ("commitsInMainBranch", toString commitsInMainBranch.length),
         ("totalPrCommits", toString prData.prCommits.length)]
      weight := 4/10 }
  else
    { method := "github-api-strategy"
      confidence := 1/10
      isSquash := false
      reasoning := "Insufficient GitHub API data to determine merge strategy"
      evidence := [("available", "false")]
      weight := 4/10 }

/-- Embeds `new Date(c.commit.author?.date || 0).getTime()`: the `|| 0` makes a
missing author (or empty date string) parse as epoch `0`. -/
def commitTimeMs (env : JsEnv) (c : GitHubCommit) : Int :=
  match c.commit.author with
  | some a => if a.date = "" then 0 else env.parseDate a.date
  | none => 0

/-- Embeds `Math.max(...l)` over a non-empty list (the only use sites guard
`l.length > 1`). -/
def listMax : List Int → Int
  | [] => 0
  | h :: t => t.foldl max h

/-- Embeds `Math.min(...l)` over a non-empty list. -/
def listMin : List Int → Int
  | [] => 0
  | h :: t => t.foldl min h

/-- The `every((ts, i) => i === 0 || ts - prev < 3600000)` adjacency scan. -/
def rapidSuccessionScan : List Int → Bool
  | [] => true
  | [_] => true
  | a :: b :: rest => decide (b - a < 3600000) && rapidSuccessionScan (b :: rest)

/-- Method 2, `detectViaTimestampPattern`. -/
def detectViaTimestampPattern (env : JsEnv) (mergeCommit : GitHubCommit)
    (prCommits : List GitHubCommit) : SquashDetectionResult :=
  if prCommits.length ≤ 1 then
    { method := "timestamp-pattern"
      confidence := 1/10
      isSquash := false
      reasoning := "Insufficient commits for timestamp analysis"
      evidence := [("commitCount", toString prCommits.length)]
      weight := 2/10 }
  else
    let mergeTimestamp := commitTimeMs env mergeCommit
    let commitTimestamps := prCommits.map (commitTimeMs env)
    let timestampVariance := listMax commitTimestamps - listMin commitTimestamps
    let hasClusteredTimestamps := decide (timestampVariance < 60000)
    let avgCommitTimestamp : ℚ :=
      (commitTimestamps.foldl (fun a b => a + b) 0 : Int) / (commitTimestamps.length : ℚ)
    let mergeTimestampDiff : ℚ := |(mergeTimestamp : ℚ) - avgCommitTimestamp|
    let mergeTimestampClose := decide (mergeTimestampDiff < 300000)
    let rapidSuccession := rapidSuccessionScan commitTimestamps
    let isSquash := hasClusteredTimestamps && mergeTimestampClose &&
      prCommits.length > 1
    let confidence : ℚ :=
      if isSquash then 7/10 else if hasClusteredTimestamps then 4/10 else 2/10
    { method := "timestamp-pattern"
      confidence := confidence
      isSquash := isSquash
      reasoning := if isSquash then
          "Timestamp pattern indicates squash: commits have clustered timestamps and merge commit timestamp is close"
        else "Timestamp pattern does not indicate squash merge"
      evidence :=
        [("timestampVariance", toString timestampVariance),
         ("hasClusteredTimestamps", toString hasClusteredTimestamps),
         ("mergeTimestampClose", toString mergeTimestampClose),
         ("rapidSuccession", toString rapidSuccession),
         ("mergeTimestamp", toString mergeTimestamp)]
      weight := 2/10 }

/-- Method 3, `detectViaAuthorCommitterDiscrepancy`.  `filter(Boolean)`
drops both missing and empty email strings; `includes(undefined)` on the
filtered string array is `false`. -/
def detectViaAuthorCommitterDiscrepancy (mergeCommit : GitHubCommit)
    (prCommits : List GitHubCommit) : SquashDetectionResult :=
  let mergeAuthor := (mergeCommit.commit.author).map (fun a => a.email)
  let mergeCommitter := (mergeCommit.commit.committer).map (fun a => a.email)
  let hasAuthorCommitterDiff : Bool := mergeAuthor != mergeCommitter
  let prAuthors := (prCommits.filterMap (fun c => (c.commit.author).map (fun a => a.email))).filter
    (fun e => e ≠ "")
  let mergeAuthorInPrAuthors :=
    match mergeAuthor with
    | some e => prAuthors.contains e
    | none => false
  let allSameAuthor := prAuthors.all (fun a => mergeAuthor == some a)
  let prCommitters := (prCommits.filterMap (fun c => (c.commit.committer).map (fun a => a.email))).filter
    (fun e => e ≠ "")
  let hasVariedCommitters : Bool := decide ((jsSetDedup prCommitters).length > 1)
  let isSquash := hasAuthorCommitterDiff && mergeAuthorInPrAuthors &&
    prCommits.length > 1
  { method := "author-committer-discrepancy"
    confidence := if isSquash then 6/10 else 3/10
    isSquash := isSquash
    reasoning := if isSquash then
        "Author/committer pattern indicates squash: merge commit has different committer but preserves original author"
      else "Author/committer pattern does not clearly indicate squash"
    evidence :=
      [("mergeAuthor", mergeAuthor.getD ""),
       ("mergeCommitter", mergeCommitter.getD ""),
       ("hasAuthorCommitterDiff", toString hasAuthorCommitterDiff),
       ("mergeAuthorInPrAuthors", toString mergeAuthorInPrAuthors),
       ("allSameAuthor", toString allSameAuthor),
       ("hasVariedCommitters", toString hasVariedCommitters)]
    weight := 15/100 }

/-- Method 4, `detectViaCommitTreeStructure`.  The outer octokit fetch of
the merge commit can fail and is converted by the catch into the
low-confidence fault verdict; the fetch of the last PR commit is guarded by
the inner try (`treeDifference = true` on failure).  The `none` branch for
the last PR commit is unreachable under the `length ≤ 1` guard and mirrors
the JS property-access throw being caught. -/
def detectViaCommitTreeStructure (octo : Octo) (mergeCommit : GitHubCommit)
    (prCommits : List GitHubCommit) : SquashDetectionResult :=
  if prCommits.length ≤ 1 then
    { method := "commit-tree-structure"
      confidence := 1/10
      isSquash := false
      reasoning := "Insufficient commits for tree structure analysis"
      evidence := [("commitCount", toString prCommits.length)]
      weight := 1/10 }
  else
    match octo.getCommit mergeCommit.sha with
    | .error e =>
      { method := "commit-tree-structure"
        confidence := 0
        isSquash := false
        reasoning := "Tree structure analysis failed: " ++ e.message
        evidence := [("error", e.message)]
        weight := 1/10 }
    | .ok mergeCommitDetails =>
      match prCommits.getLast? with
      | none =>
        { method := "commit-tree-structure"
          confidence := 0
          isSquash := false
          reasoning := "Tree structure analysis failed: no last PR commit"
          evidence := [("error", "no last PR commit")]
          weight := 1/10 }
      | some lastPrCommit =>
        let hasOneParent := mergeCommit.parents.length == 1
        let treeDifference : Bool :=
          match octo.getCommit lastPrCommit.sha with
          | .ok lastPrCommitDetails =>
            mergeCommitDetails.treeSha != lastPrCommitDetails.treeSha
          | .error _ => true
        let isSquash := hasOneParent && treeDifference && prCommits.length > 1
        { method := "commit-tree-structure"
          confidence := if isSquash then 8/10 else 3/10
          isSquash := isSquash
          reasoning := if isSquash then
              "Tree structure indicates squash: single parent with different tree structure"
            else "Tree structure does not indicate squash merge"
          evidence :=
            [("hasOneParent", toString hasOneParent),
             ("treeDifference", toString treeDifference),
             ("mergeCommitTreeSha", mergeCommitDetails.treeSha),
             ("parentCount", toString mergeCommit.parents.length)]
          weight := 1/10 }

/-- Method 5, `detectViaGitHubEventsAPI`: filter the timeline for
`merged`/`closed` events, then take the first `merged` event carrying a
truthy `merge_strategy` tag; squash is confirmed exactly when that tag is
the string `squash`. -/
def detectViaGitHubEventsAPI (prData : PullRequestData) : SquashDetectionResult :=
  let mergeEvents := (prData.timelineEvents.getD []).filter
    (fun e => e.event == "merged" || e.event == "closed")
  let strategyHit := mergeEvents.find?
    (fun e => e.event == "merged" && strOptTruthy e.merge_strategy)
  let mergeStrategy :=
    match strategyHit with
    | some e => (e.merge_strategy).getD "unknown"
    | none => "unknown"
  let squashEventFound :=
    match strategyHit with
    | some e => (e.merge_strategy).getD "" == "squash"
    | none => false
  let confidence : ℚ :=
    if squashEventFound then 95/100
    else if mergeEvents.length > 0 then 2/10 else 1/10
  { method := "github-events-api"
    confidence := confidence
    isSquash := squashEventFound
    reasoning := if squashEventFound then
        "GitHub Events API confirms squash merge strategy"
      else "GitHub Events API does not indicate squash merge"
    evidence :=
      [("mergeEventsFound", toString mergeEvents.length),
       ("mergeStrategy", mergeStrategy),
       ("squashEventFound", toString squashEventFound),
       ("timelineEventsCount", toString ((prData.timelineEvents.getD []).length))]
    weight := 3/10 }

/-- Embeds `stats.additions || 0` on an optional stats record. -/
def statField (o : Option CommitStats) (f : CommitStats → Option Int) : Int :=
  match o with
  | some st => (f st).getD 0
  | none => 0

/-- Method 6, `detectViaDiffAnalysis`: compare merge-commit diff stats with
the summed stats of the first three PR commits; per-commit fetch failures
are skipped by the inner catch, a merge-commit fetch failure is converted
by the outer catch into the fault verdict. -/
def detectViaDiffAnalysis (octo : Octo) (mergeCommit : GitHubCommit)
    (prCommits : List GitHubCommit) : SquashDetectionResult :=
  if prCommits.length ≤ 1 then
    { method := "diff-analysis"
      confidence := 1/10
      isSquash := false
      reasoning := "Insufficient commits for diff analysis"
      evidence := [("commitCount", toString prCommits.length)]
      weight := 5/100 }
  else
    match octo.getCommit mergeCommit.sha with
    | .error e =>
      { method := "diff-analysis"
        confidence := 0
        isSquash := false
        reasoning := "Diff analysis failed: " ++ e.message
        evidence := [("error", e.message)]
        weight := 5/100 }
    | .ok mergeCommitDiff =>
      let mergeStats := mergeCommitDiff.stats
      let totals := (prCommits.take 3).foldl
        (fun (t : Int × Int × Int) c =>
          match octo.getCommit c.sha with
          | .ok commitDiff =>
            match commitDiff.stats with
            | some st =>
              (t.1 + st.additions.getD 0, t.2.1 + st.deletions.getD 0,
               t.2.2 + st.total.getD 0)
            | none => t
          | .error _ => t)
        (0, 0, 0)
      let totalAdditions := totals.1
      let totalDeletions := totals.2.1
      let totalChanges := totals.2.2
      let additionsDiff := |statField mergeStats CommitStats.additions - totalAdditions|
      let deletionsDiff := |statField mergeStats CommitStats.deletions - totalDeletions|
      let totalDiff := |statField mergeStats CommitStats.total - totalChanges|
      let statsThreshold : ℚ := max ((totalChanges : ℚ) * (1/10)) 10
      let statsSimilar := decide ((totalDiff : ℚ) ≤ statsThreshold)
      let isSquash := statsSimilar && prCommits.length > 1 && totalChanges > 0
      { method := "diff-analysis"
        confidence := if isSquash then 6/10 else 3/10
        isSquash := isSquash
        reasoning := if isSquash then
            "Diff analysis indicates squash: merge commit changes similar to combined PR commits"
          else "Diff analysis does not clearly indicate squash"
        evidence :=
          [("additionsDiff", toString additionsDiff),
           ("deletionsDiff", toString deletionsDiff),
           ("totalDiff", toString totalDiff),
           ("statsSimilar", toString statsSimilar)]
        weight := 5/100 }

/-- Method 7, `detectViaLegacyHeuristics`. -/
def detectViaLegacyHeuristics (mergeCommit : GitHubCommit)
    (prCommits : List GitHubCommit) : SquashDetectionResult :=
  let hasOneParent := mergeCommit.parents.length == 1
  let hasMultiplePrCommits : Bool := decide (prCommits.length > 1)
  let hasSquashKeywords := analyzeSquashIndicatorsInMessage mergeCommit.commit.message
  let isSquash := hasOneParent && hasMultiplePrCommits
  let confidence : ℚ :=
    if isSquash then (if hasSquashKeywords then 7/10 else 5/10) else 2/10
  { method := "legacy-heuristics"
    confidence := confidence
    isSquash := isSquash
    reasoning := if isSquash then
        "Legacy heuristics indicate squash: single parent with multiple PR commits"
      else "Legacy heuristics do not indicate squash"
    evidence :=
      [("hasOneParent", toString hasOneParent),
       ("hasMultiplePrCommits", toString hasMultiplePrCommits),
       ("hasSquashKeywords", toString hasSquashKeywords),
       ("prCommitCount", toString prCommits.length),
       ("parentCount", toString mergeCommit.parents.length)]
    weight := 1/10 }

/-- Embeds `crossValidateResults`: weighted cross-validation of the collected
verdicts. -/
def crossValidateResults (config : SquashAnalysisConfig)
    (results : List SquashDetectionResult) : AggResult :=
  if results.length == 0 then
    { isSquash := false
      confidence := 0
      methods := []
      reasoning := "No detection methods were executed" }
  else
    let totalWeight : ℚ := results.foldl (fun sum r => sum + r.weight) 0
    let weightedSquashScore : ℚ := results.foldl
      (fun sum r => sum + (if r.isSquash then r.confidence * r.weight else 0)) 0
    let weightedNonSquashScore : ℚ := results.foldl
      (fun sum r => sum + (if !r.isSquash then r.confidence * r.weight else 0)) 0
    let finalConfidence : ℚ := max weightedSquashScore weightedNonSquashScore / totalWeight
    let isSquash := decide (weightedSquashScore > weightedNonSquashScore)
    let meetsThreshold := decide (finalConfidence ≥ config.confidenceThreshold)
    let positiveResults := results.filter (fun r => r.isSquash)
    let negativeResults := results.filter (fun r => !r.isSquash)
    let reasoning :=
      "Cross-validation of " ++ toString results.length ++ " methods: " ++
      toString positiveResults.length ++ " indicate squash, " ++
      toString negativeResults.length ++ " indicate non-squash. " ++
      "Weighted confidence: " ++ toFixed1 (finalConfidence * 100) ++ "%. " ++
      (if meetsThreshold then "Meets confidence threshold." else "Below confidence threshold.")
    { isSquash := isSquash && meetsThreshold
      confidence := finalConfidence
      methods := results
      reasoning := reasoning }

/-- Embeds `detectSquash`: run each enabled method in source order, then
cross-validate. -/
def detectSquash (octo : Octo) (env : JsEnv) (config : SquashAnalysisConfig)
    (mergeCommit : GitHubCommit) (prCommits : List GitHubCommit)
    (prData : PullRequestData) (repoOwner repoName : String) : AggResult :=
  let r0 : List SquashDetectionResult := []
  let r1 := if config.enabledMethods.contains "github-api-strategy" then
      r0 ++ [detectViaGitHubAPIStrategy octo prData repoOwner repoName] else r0
  let r2 := if config.enabledMethods.contains "timestamp-pattern" then
      r1 ++ [detectViaTimestampPattern env mergeCommit prCommits] else r1
  let r3 := if config.enabledMethods.contains "author-committer-discrepancy" then
      r2 ++ [detectViaAuthorCommitterDiscrepancy mergeCommit prCommits] else r2
  let r4 := if config.enabledMethods.contains "commit-tree-structure" then
      r3 ++ [detectViaCommitTreeStructure octo mergeCommit prCommits] else r3
  let r5 := if config.enabledMethods.contains "github-events-api" then
      r4 ++ [detectViaGitHubEventsAPI prData] else r4
  let r6 := if config.enabledMethods.contains "diff-analysis" then
      r5 ++ [detectViaDiffAnalysis octo mergeCommit prCommits] else r5
  let r7 := if config.enabledMethods.contains "legacy-heuristics" then
      r6 ++ [detectViaLegacyHeuristics mergeCommit prCommits] else r6
  crossValidateResults config r7

end AdvancedSquashDetector

/-! ## AnalysisDepthManager (analysis-depth-manager.ts)

The metadata bags attached to nodes and results are modelled as concrete
structures holding exactly the keys the source writes.  The mutable
`processedPRs : Set<number>` shared across the recursion is threaded
explicitly.  The recursion is defined with an explicit `fuel` argument
(instantiated as `6 - currentDepth`): since `performDeepAnalysis` stops at
`currentDepth >= 5` before any recursive call, the fuel-exhausted branch
(which repeats the same shallow fallback) is unreachable from the
entry point. -/

/-- The metadata bag of an expanded `CommitNode` (src/lib/types.ts
`metadata`), holding exactly the keys the depth manager writes. -/
structure NodeMeta where
  originallySquashed : Bool
  squashParent : Option String
  analysisDepth : Option String
  detectionMethods : Option (List SquashDetectionResult)
  confidence : Option ℚ
  nestedPrNumber : Option Nat
  currentDepth : Option Nat
  fetchFailed : Option Bool
  error : Option String
  deriving Repr, DecidableEq

/-- A `CommitNode` as emitted by the depth manager. -/
structure DepthCommitNode where
  sha : String
  shortSha : String
  message : String
  author : String
  date : String
  parents : List String
  branch : String
  type : String
  metadata : NodeMeta
  deriving Repr, DecidableEq

/-- The `analysisMetadata` bag built by `analyzeWithDepth` and mutated by
the shallow/deep passes.  `nestedAnalyses` entries keep the pushed
`prNumber`, `depth` and the nested run's metadata (the source spreads the
nested metadata into the entry object). -/
inductive AnalysisMeta where
  | mk : (detectionMethods : List SquashDetectionResult) →
      (analysisDepth : String) → (currentDepth : Nat) → (reasoning : String) →
      (expandedCommitsCount : Option Nat) → (shallowAnalysisComplete : Option Bool) →
      (maxDepthReached : Option Bool) → (deepAnalysisComplete : Option Bool) →
      (finalDepth : Option Nat) →
      (nestedAnalyses : List (Nat × Nat × AnalysisMeta)) → AnalysisMeta

def AnalysisMeta.maxDepthReached : AnalysisMeta → Option Bool
  | .mk _ _ _ _ _ _ v _ _ _ => v

def AnalysisMeta.shallowAnalysisComplete : AnalysisMeta → Option Bool
  | .mk _ _ _ _ _ v _ _ _ _ => v

def AnalysisMeta.expandedCommitsCount : AnalysisMeta → Option Nat
  | .mk _ _ _ _ v _ _ _ _ _ => v

def AnalysisMeta.deepAnalysisComplete : AnalysisMeta → Option Bool
  | .mk _ _ _ _ _ _ _ v _ _ => v

/-- Embeds `analysisMetadata.expandedCommitsCount = n; analysisMetadata.shallowAnalysisComplete = true`. -/
def AnalysisMeta.setShallowComplete (m : AnalysisMeta) (count : Nat) : AnalysisMeta :=
  match m with
  | .mk dm ad cd r _ _ mdr dac fd na =>
    .mk dm ad cd r (some count) (some true) mdr dac fd na

/-- Embeds `analysisMetadata.maxDepthReached = true`. -/
def AnalysisMeta.setMaxDepthReached (m : AnalysisMeta) : AnalysisMeta :=
  match m with
  | .mk dm ad cd r ecc sac _ dac fd na =>
    .mk dm ad cd r ecc sac (some true) dac fd na

/-- The deep pass's final metadata writes: `expandedCommitsCount`,
`deepAnalysisComplete`, `finalDepth` and the accumulated `nestedAnalyses`. -/
def AnalysisMeta.setDeepComplete (m : AnalysisMeta) (count finalDepth : Nat)
    (nested : List (Nat × Nat × AnalysisMeta)) : AnalysisMeta :=
  match m with
  | .mk dm ad cd r _ sac mdr _ _ _ =>
    .mk dm ad cd r (some count) sac mdr (some true) (some finalDepth) nested

/-- The result record of `analyzeWithDepth`. -/
structure DepthAnalysisResult where
  isSquash : Bool
  confidence : ℚ
  expandedCommits : List DepthCommitNode
  analysisMetadata : AnalysisMeta

/-- The external world of the depth manager: the octokit oracle used by the
detector, the JS runtime environment, and `fetchPullRequestData` (whose
catch turns any gateway failure into `null`). -/
structure DeepGateway where
  octo : Octo
  env : JsEnv
  fetchPR : Nat → Option PullRequestData

/-- Embeds `commit.commit.author?.name || 'N/A'` (used by the depth manager and
the lineage flow alike). -/
def jsAuthorName (c : GitHubCommit) : String :=
  match c.commit.author with
  | some a => if a.name = "" then "N/A" else a.name
  | none => "N/A"

/-- Embeds `commit.commit.author?.date || new Date().toISOString()`. -/
def jsDateOrNow (env : JsEnv) (c : GitHubCommit) : String :=
  match c.commit.author with
  | some a => if a.date = "" then env.nowIso else a.date
  | none => env.nowIso

/-- Embeds `sha.substring(0, 7)`. -/
def jsShortSha (s : String) : String := String.mk (s.data.take 7)

namespace AnalysisDepthManager

/-- Embeds `createCommitNode`: build an "Expanded Commit" node; `additional` is the
`additionalMetadata` object spread over `{ originallySquashed: true }`. -/
def createCommitNode (env : JsEnv) (commit : GitHubCommit)
    (prData : PullRequestData) (additional : NodeMeta) : DepthCommitNode :=
  { sha := commit.sha
    shortSha := jsShortSha commit.sha
    message := commit.commit.message
    author := jsAuthorName commit
    date := jsDateOrNow env commit
    parents := commit.parents
    branch := prData.prDetails.headRef
    type := "Expanded Commit"
    metadata := { additional with originallySquashed := true } }

/-- An empty `additionalMetadata` object (all optional keys absent). -/
def noMeta : NodeMeta :=
  { originallySquashed := true, squashParent := none, analysisDepth := none
    detectionMethods := none, confidence := none, nestedPrNumber := none
    currentDepth := none, fetchFailed := none, error := none }

/-- Embeds `performShallowAnalysis`: one "Squashed Commit" node per original PR
commit, each carrying the squash parent sha and the detector's
verdicts/confidence; no recursion and no gateway access. -/
def performShallowAnalysis (env : JsEnv) (mergeCommit : GitHubCommit)
    (prCommits : List GitHubCommit) (prData : PullRequestData)
    (squashResult : AggResult) (analysisMetadata : AnalysisMeta) :
    DepthAnalysisResult :=
  let expandedCommits := prCommits.map (fun commit =>
    { sha := commit.sha
      shortSha := jsShortSha commit.sha
      message := commit.commit.message
      author := jsAuthorName commit
      date := jsDateOrNow env commit
      parents := commit.parents
      branch := prData.prDetails.headRef
      type := "Squashed Commit"
      metadata :=
        { noMeta with
            squashParent := some mergeCommit.sha
            analysisDepth := some "shallow"
            detectionMethods := some squashResult.methods
            confidence := some squashResult.confidence } : DepthCommitNode })
  { isSquash := true
    confidence := squashResult.confidence
    expandedCommits := expandedCommits
    analysisMetadata := analysisMetadata.setShallowComplete expandedCommits.length }

/-- The `maxDepth = 5` constant of `performDeepAnalysis`. -/
def maxDepth : Nat := 5

mutual

/-- Embeds `analyzeWithDepth` body: run the detector, return the basic result for a
non-squash, otherwise dispatch on the configured depth policy.  Returns the
result together with the updated `processedPRs` set. -/
def analyzeWithDepthAux (fuel : Nat) (gw : DeepGateway)
    (config : SquashAnalysisConfig) (mergeCommit : GitHubCommit)
    (prCommits : List GitHubCommit) (prData : PullRequestData)
    (repoOwner repoName : String) (processedPRs : List Nat)
    (currentDepth : Nat) : DepthAnalysisResult × List Nat :=
  let squashResult := AdvancedSquashDetector.detectSquash gw.octo gw.env config
    mergeCommit prCommits prData repoOwner repoName
  let analysisMetadata : AnalysisMeta :=
    .mk squashResult.methods config.analysisDepth currentDepth
      squashResult.reasoning none none none none none []
  if !squashResult.isSquash then
    ({ isSquash := false, confidence := squashResult.confidence
       expandedCommits := [], analysisMetadata := analysisMetadata }, processedPRs)
  else if config.analysisDepth == "shallow" then
    (performShallowAnalysis gw.env mergeCommit prCommits prData squashResult
      analysisMetadata, processedPRs)
  else
    performDeepAnalysisAux fuel gw config mergeCommit prCommits prData
      repoOwner repoName squashResult processedPRs currentDepth analysisMetadata
termination_by (fuel, 1, 0)

/-- Embeds `performDeepAnalysis` body: at the depth cap, set `maxDepthReached` and
fall back to shallow emission; below it, walk the PR commits. -/
def performDeepAnalysisAux (fuel : Nat) (gw : DeepGateway)
    (config : SquashAnalysisConfig) (mergeCommit : GitHubCommit)
    (prCommits : List GitHubCommit) (prData : PullRequestData)
    (repoOwner repoName : String) (squashResult : AggResult)
    (processedPRs : List Nat) (currentDepth : Nat)
    (analysisMetadata : AnalysisMeta) : DepthAnalysisResult × List Nat :=
  if currentDepth ≥ maxDepth then
    (performShallowAnalysis gw.env mergeCommit prCommits prData squashResult
      analysisMetadata.setMaxDepthReached, processedPRs)
  else
    match fuel with
    | 0 =>
      (performShallowAnalysis gw.env mergeCommit prCommits prData squashResult
        analysisMetadata.setMaxDepthReached, processedPRs)
    | f + 1 =>
      let st := deepCommitsLoop f gw config prData repoOwner repoName
        currentDepth prCommits processedPRs [] []
      let expandedCommits := st.1
      ({ isSquash := true
         confidence := squashResult.confidence
         expandedCommits := expandedCommits
         analysisMetadata := analysisMetadata.setDeepComplete
           expandedCommits.length currentDepth st.2.2 }, st.2.1)
termination_by (fuel, 0, 0)

/-- The `for (const commit of prCommits)` loop of `performDeepAnalysis`:
accumulates expanded commits and `nestedAnalyses` entries while threading
the visited-PR set.  A commit whose message references an unvisited PR is
recursed into (the number is added to the set first); a visited, absent or
unfetchable reference still emits the commit as an "Expanded Commit".
`if (nestedPrNumber && ...)` makes a parsed `0` falsy, like in JS. -/
def deepCommitsLoop (fuel : Nat) (gw : DeepGateway)
    (config : SquashAnalysisConfig) (prData : PullRequestData)
    (repoOwner repoName : String) (currentDepth : Nat)
    (commits : List GitHubCommit) (processedPRs : List Nat)
    (acc : List DepthCommitNode) (nested : List (Nat × Nat × AnalysisMeta)) :
    List DepthCommitNode × List Nat × List (Nat × Nat × AnalysisMeta) :=
  match commits with
  | [] => (acc, processedPRs, nested)
  | commit :: rest =>
    let nestedPrNumber := extractPrNumberFromMessage commit.commit.message
    match nestedPrNumber with
    | some n =>
      if n ≠ 0 && !processedPRs.contains n then
        let processedPRs1 := processedPRs ++ [n]
        match gw.fetchPR n with
        | some nestedPrData =>
          match nestedPrData.mergeCommit with
          | some nestedMergeCommit =>
            let nestedOut := analyzeWithDepthAux fuel gw config nestedMergeCommit
              nestedPrData.prCommits nestedPrData repoOwner repoName
              processedPRs1 (currentDepth + 1)
            let nestedAnalysis := nestedOut.1
            if nestedAnalysis.isSquash && nestedAnalysis.expandedCommits.length > 0 then
              deepCommitsLoop fuel gw config prData repoOwner repoName
                currentDepth rest nestedOut.2
                (acc ++ nestedAnalysis.expandedCommits)
                (nested ++ [(n, currentDepth + 1, nestedAnalysis.analysisMetadata)])
            else
              deepCommitsLoop fuel gw config prData repoOwner repoName
                currentDepth rest nestedOut.2
                (acc ++ [createCommitNode gw.env commit prData
                  { noMeta with
                      nestedPrNumber := some n
                      analysisDepth := some "deep"
                      currentDepth := some (currentDepth + 1) }]) nested
          | none =>
            deepCommitsLoop fuel gw config prData repoOwner repoName
              currentDepth rest processedPRs1
              (acc ++ [createCommitNode gw.env commit prData
                { noMeta with
                    nestedPrNumber := some n
                    analysisDepth := some "deep"
                    fetchFailed := some true }]) nested
        | none =>
          deepCommitsLoop fuel gw config prData repoOwner repoName
            currentDepth rest processedPRs1
            (acc ++ [createCommitNode gw.env commit prData
              { noMeta with
                  nestedPrNumber := some n
                  analysisDepth := some "deep"
                  fetchFailed := some true }]) nested
      else
        deepCommitsLoop fuel gw config prData repoOwner repoName
          currentDepth rest processedPRs
          (acc ++ [createCommitNode gw.env commit prData
            { noMeta with
                analysisDepth := some "deep"
                currentDepth := some currentDepth }]) nested
    | none =>
      deepCommitsLoop fuel gw config prData repoOwner repoName
        currentDepth rest processedPRs
        (acc ++ [createCommitNode gw.env commit prData
          { noMeta with
              analysisDepth := some "deep"
              currentDepth := some currentDepth }]) nested
termination_by (fuel, 2, commits.length)

end

/-- Embeds `analyzeWithDepth` entry point: the fuel `6 - currentDepth` covers every
level the `currentDepth >= 5` cap can reach. -/
def analyzeWithDepth (gw : DeepGateway) (config : SquashAnalysisConfig)
    (mergeCommit : GitHubCommit) (prCommits : List GitHubCommit)
    (prData : PullRequestData) (repoOwner repoName : String)
    (processedPRs : List Nat) (currentDepth : Nat) :
    DepthAnalysisResult × List Nat :=
  analyzeWithDepthAux (6 - currentDepth) gw config mergeCommit prCommits prData
    repoOwner repoName processedPRs currentDepth

/-- Embeds `AnalysisDepthManager.getDefaultConfig`. -/
def getDefaultConfig (analysisDepth : String) : SquashAnalysisConfig :=
  { analysisDepth := analysisDepth
    enabledMethods :=
      ["github-api-strategy", "timestamp-pattern", "author-committer-discrepancy",
       "github-events-api", "legacy-heuristics"]
    confidenceThreshold := 6/10
    crossValidationRequired := true }

/-- Embeds `AnalysisDepthManager.getPerformanceConfig`. -/
def getPerformanceConfig (analysisDepth : String) : SquashAnalysisConfig :=
  { analysisDepth := analysisDepth
    enabledMethods := ["github-api-strategy", "timestamp-pattern", "legacy-heuristics"]
    confidenceThreshold := 5/10
    crossValidationRequired := false }

/-- Embeds `AnalysisDepthManager.getComprehensiveConfig`. -/
def getComprehensiveConfig (analysisDepth : String) : SquashAnalysisConfig :=
  { analysisDepth := analysisDepth
    enabledMethods :=
      ["github-api-strategy", "timestamp-pattern", "author-committer-discrepancy",
       "commit-tree-structure", "github-events-api", "diff-analysis",
       "legacy-heuristics"]
    confidenceThreshold := 7/10
    crossValidationRequired := true }

end AnalysisDepthManager

/-! ## getPullRequestData (src/ai/tools/github-tools.ts) -/

/-- The raw octokit endpoints used by `getPullRequestData`: PR details,
PR commit list, commit-by-ref, and PR timeline events. -/
structure OctoRaw where
  pullsGet : Nat → Except GhError PullRequestDetails
  listCommits : Nat → Except GhError (List GitHubCommit)
  getCommitFull : String → Except GhError GitHubCommit
  listEventsForTimeline : Nat → Except GhError (List TimelineEvent)

/-- Embeds `getPullRequestData`: PR details and commits propagate their failures;
the merge-commit fetch, the timeline fetch and the base-commit fetch are
each guarded by their own catch (yielding `null` / `[]` / `undefined`).
The timeline response is filtered down to the three event kinds
`head_ref_force_pushed`, `base_ref_changed` and `committed`. -/
def getPullRequestData (octo : OctoRaw) (pullRequestNumber : Nat) :
    Except GhError PullRequestData :=
  match octo.pullsGet pullRequestNumber with
  | .error e => .error e
  | .ok prDetails =>
    match octo.listCommits pullRequestNumber with
    | .error e => .error e
    | .ok prCommits =>
      let mergeCommit : Option GitHubCommit :=
        if prDetails.merged && strOptTruthy prDetails.merge_commit_sha then
          match octo.getCommitFull ((prDetails.merge_commit_sha).getD "") with
          | .ok c => some c
          | .error _ => none
        else none
      let timelineEvents : List TimelineEvent :=
        match octo.listEventsForTimeline pullRequestNumber with
        | .ok evs => evs.filter (fun e =>
            ["head_ref_force_pushed", "base_ref_changed", "committed"].contains e.event)
        | .error _ => []
      let baseCommit : Option GitHubCommit :=
        match octo.getCommitFull prDetails.baseSha with
        | .ok c => some c
        | .error _ => none
      .ok { prDetails := prDetails
            prCommits := prCommits
            mergeCommit := mergeCommit
            timelineEvents := some timelineEvents
            baseCommit := baseCommit }

/-! ## CircuitBreaker (analyze-commit-lineage.ts lines 110-149) -/

/-- The mutable fields of the `CircuitBreaker` class. -/
structure CircuitBreakerState where
  failures : Nat
  lastFailureTime : Int
  deriving Repr, DecidableEq

/-- The freshly constructed breaker (`failures = 0`, `lastFailureTime = 0`). -/
def CircuitBreakerState.init : CircuitBreakerState := ⟨0, 0⟩

/-- The two distinct failure outcomes of `execute`: the synthetic
open-circuit error thrown before the operation runs, and a rethrown
operation failure. -/
inductive CBOutcome (α : Type) where
  | ok (a : α)
  | opFailed (e : GhError)
  | circuitOpen
  deriving Repr, DecidableEq

namespace CircuitBreaker

/-- Embeds `isOpen()`: at least `maxFailures` consecutive failures and the reset
window has not yet elapsed since the last one (`Date.now()` is the explicit
`now`). -/
def isOpen (maxFailures : Nat) (resetTimeoutMs : Int)
    (st : CircuitBreakerState) (now : Int) : Bool :=
  st.failures ≥ maxFailures && (now - st.lastFailureTime < resetTimeoutMs)

/-- Embeds `onSuccess()`: reset the failure counter. -/
def onSuccess (st : CircuitBreakerState) : CircuitBreakerState :=
  { st with failures := 0 }

/-- Embeds `onFailure()`: bump the counter and record the failure time. -/
def onFailure (st : CircuitBreakerState) (now : Int) : CircuitBreakerState :=
  { failures := st.failures + 1, lastFailureTime := now }

/-- Embeds `execute(operation)`: throw the open-circuit error without touching the
operation when open; otherwise run the operation, resetting the counter on
success and recording the failure on error (which is rethrown). -/
def execute {α : Type} (maxFailures : Nat) (resetTimeoutMs : Int)
    (st : CircuitBreakerState) (now : Int) (operation : Except GhError α) :
    CBOutcome α × CircuitBreakerState :=
  if isOpen maxFailures resetTimeoutMs st now then
    (.circuitOpen, st)
  else
    match operation with
    | .ok a => (.ok a, onSuccess st)
    | .error e => (.opFailed e, onFailure st now)

end CircuitBreaker

/-! ## detectGitOperation and helpers (analyze-commit-lineage.ts) -/

/-- The metadata bag `detectGitOperation` / the squash-enrichment step can
attach to a merge node.  The source reuses the key `originalCommits` for a
*count* in the rebase branches and for a *sha list* in the squash
enrichment; the two readings are kept as separate fields here. -/
structure GitOpMeta where
  originalCommitCount : Option Nat
  originalCommits : Option (List String)
  originalCommitsNum : Option Nat
  squashedFrom : Option String
  modifiedHistory : Option Bool
  linearHistory : Option Bool
  baseChanged : Option Bool
  forcePushCount : Option Nat
  forcePushDates : Option (List String)
  deriving Repr, DecidableEq

/-- A `GitOpMeta` with every key absent. -/
def GitOpMeta.empty : GitOpMeta :=
  ⟨none, none, none, none, none, none, none, none, none⟩

/-- The `{ type, confidence, metadata? }` result of `detectGitOperation`. -/
structure GitOperation where
  type : String
  confidence : ℚ
  metadata : Option GitOpMeta
  deriving Repr, DecidableEq

/-- Embeds `isSquashCommit`: one parent, and either several PR commits or a squash
keyword / PR-reference / conventional-commit message pattern. -/
def isSquashCommit (mergeCommit : GitHubCommit) (prCommits : List GitHubCommit)
    (message : String) : Bool :=
  if mergeCommit.parents.length ≠ 1 then false
  else if prCommits.length > 1 then true
  else
    ciContainsStr message "squash" ||
    (extractPrNumberFromMessage message).isSome ||
    testConventionalCommit message

/-- Embeds `hasInteractiveRebasePatterns`: fixup!/squash!/amend/reword keywords in
the merge commit message. -/
def hasInteractiveRebasePatterns (mergeCommit : GitHubCommit)
    (_prCommits : List GitHubCommit) : Bool :=
  let message := mergeCommit.commit.message
  ciContainsStr message "fixup!" || ciContainsStr message "squash!" ||
  ciContainsStr message "amend" || ciContainsStr message "reword"

/-- Embeds `hasSimpleRebasePatterns`: one parent and at least one PR commit. -/
def hasSimpleRebasePatterns (mergeCommit : GitHubCommit)
    (prCommits : List GitHubCommit) : Bool :=
  mergeCommit.parents.length == 1 && prCommits.length ≥ 1

/-- The `{ isRebase, type, confidence, metadata? }` record of `detectRebase`. -/
structure RebaseInfo where
  isRebase : Bool
  type : String
  confidence : ℚ
  metadata : Option GitOpMeta
  deriving Repr, DecidableEq

/-- Embeds `detectRebase`: force-push timeline events are the strong signal,
otherwise fall back to message / shape patterns. -/
def detectRebase (mergeCommit : GitHubCommit) (prCommits : List GitHubCommit)
    (timelineEvents : Option (List TimelineEvent)) : RebaseInfo :=
  let forcePushEvents := (timelineEvents.getD []).filter
    (fun e => e.event == "head_ref_force_pushed")
  let baseRefChangedEvents := (timelineEvents.getD []).filter
    (fun e => e.event == "base_ref_changed")
  if forcePushEvents.length > 0 then
    if hasInteractiveRebasePatterns mergeCommit prCommits then
      { isRebase := true, type := "Interactive Rebase", confidence := 95/100
        metadata := some { GitOpMeta.empty with
          originalCommitsNum := some prCommits.length
          modifiedHistory := some true
          forcePushCount := some forcePushEvents.length
          forcePushDates := some (forcePushEvents.map (fun e => e.created_at)) } }
    else
      { isRebase := true, type := "Simple Rebase", confidence := 9/10
        metadata := some { GitOpMeta.empty with
          linearHistory := some true
          baseChanged := some (decide (baseRefChangedEvents.length > 0))
          forcePushCount := some forcePushEvents.length
          forcePushDates := some (forcePushEvents.map (fun e => e.created_at)) } }
  else if hasInteractiveRebasePatterns mergeCommit prCommits then
    { isRebase := true, type := "Interactive Rebase", confidence := 7/10
      metadata := some { GitOpMeta.empty with
        originalCommitsNum := some prCommits.length
        modifiedHistory := some true } }
  else if hasSimpleRebasePatterns mergeCommit prCommits then
    { isRebase := true, type := "Simple Rebase", confidence := 6/10
      metadata := some { GitOpMeta.empty with
        linearHistory := some true
        baseChanged := some (decide (baseRefChangedEvents.length > 0)) } }
  else
    { isRebase := false, type := "", confidence := 0, metadata := none }

/-- Embeds `detectGitOperation`: single parent → Squash / rebase / Fast-Forward,
multiple parents → Merge Commit, no parents → Unknown. -/
def detectGitOperation (mergeCommit : GitHubCommit)
    (prCommits : List GitHubCommit) (_prBranchName : String)
    (timelineEvents : Option (List TimelineEvent)) : GitOperation :=
  if mergeCommit.parents.length == 1 then
    if isSquashCommit mergeCommit prCommits mergeCommit.commit.message then
      { type := "Squash", confidence := 9/10
        metadata := some { GitOpMeta.empty with
          originalCommitCount := some prCommits.length } }
    else
      let rebaseInfo := detectRebase mergeCommit prCommits timelineEvents
      if rebaseInfo.isRebase then
        { type := rebaseInfo.type, confidence := rebaseInfo.confidence
          metadata := rebaseInfo.metadata }
      else
        { type := "Fast-Forward", confidence := 7/10, metadata := none }
  else if mergeCommit.parents.length > 1 then
    { type := "Merge Commit", confidence := 95/100, metadata := none }
  else
    { type := "Unknown", confidence := 1/10, metadata := none }

/-! ## analyzeCommitLineage (the deterministic flow of
src/ai/flows/analyze-commit-lineage.ts, lines 350-477) -/

/-- A node of the output lineage graph (`CommitNode` of src/lib/types.ts as
populated by the flow). -/
structure LineageNode where
  sha : String
  shortSha : String
  message : String
  author : String
  date : String
  parents : List String
  branch : String
  type : String
  metadata : Option GitOpMeta
  deriving Repr, DecidableEq

/-- The per-call mutable state of the flow: the insertion-ordered sha-keyed
node map, the FIFO PR queue, the visited set, the analyzed list and the
breaker. -/
structure FlowState where
  nodes : List (String × LineageNode)
  prQueue : List Nat
  processedPRs : List Nat
  prsAnalyzed : List Nat
  breaker : CircuitBreakerState
  deriving Repr, DecidableEq

/-- Embeds `nodes.has(sha)` on the insertion-ordered map. -/
def nodesHas (nodes : List (String × LineageNode)) (sha : String) : Bool :=
  nodes.any (fun p => p.1 == sha)

/-- Embeds `nodes.set(sha, node)`: update in place if present (keeping map
position), append otherwise — JS `Map` insertion-order semantics. -/
def nodesSet (nodes : List (String × LineageNode)) (sha : String)
    (node : LineageNode) : List (String × LineageNode) :=
  if nodesHas nodes sha then
    nodes.map (fun p => if p.1 == sha then (sha, node) else p)
  else nodes ++ [(sha, node)]

/-- Embeds `nodes.get(sha)`. -/
def nodesGet (nodes : List (String × LineageNode)) (sha : String) :
    Option LineageNode :=
  (nodes.find? (fun p => p.1 == sha)).map (fun p => p.2)

/-- The body of `for (const commit of prData.prCommits)`: skip commits whose
sha is already a node (the `continue` also skips the nested-PR push),
otherwise insert a "Commit" node and — if the message references an
unvisited PR and the queue is under its 20-entry cap — enqueue the
reference.  A parsed `0` is falsy in `if (nestedPrNumber && ...)`. -/
def processPrCommit (env : JsEnv) (prBranchName : String)
    (processedPRs : List Nat)
    (acc : List (String × LineageNode) × List Nat) (commit : GitHubCommit) :
    List (String × LineageNode) × List Nat :=
  let nodes := acc.1
  let prQueue := acc.2
  if nodesHas nodes commit.sha then acc
  else
    let nodes1 := nodesSet nodes commit.sha
      { sha := commit.sha
        shortSha := jsShortSha commit.sha
        message := commit.commit.message
        author := jsAuthorName commit
        date := jsDateOrNow env commit
        parents := commit.parents
        branch := prBranchName
        type := "Commit"
        metadata := none }
    let prQueue1 :=
      match extractPrNumberFromMessage commit.commit.message with
      | some n =>
        if n ≠ 0 && !processedPRs.contains n && prQueue.length < 20 then
          prQueue ++ [n]
        else prQueue
      | none => prQueue
    (nodes1, prQueue1)

/-- The merge/squash-commit processing block of the flow: maybe enqueue the
PR referenced by the merge message, classify via `detectGitOperation`,
enrich Squash metadata with the original commit shas and source branch, and
upsert the node (updating `branch`, `type`, `parents`, `metadata` in place
when the sha is already a node). -/
def processMergeCommit (env : JsEnv) (prData : PullRequestData)
    (prBranchName : String) (processedPRs : List Nat)
    (nodes : List (String × LineageNode)) (prQueue : List Nat)
    (mergeCommit : GitHubCommit) :
    List (String × LineageNode) × List Nat :=
  let mergeCommitSha := mergeCommit.sha
  let prQueue1 :=
    match extractPrNumberFromMessage mergeCommit.commit.message with
    | some n =>
      if n ≠ 0 && !processedPRs.contains n && prQueue.length < 20 then
        prQueue ++ [n]
      else prQueue
    | none => prQueue
  let gitOperation := detectGitOperation mergeCommit prData.prCommits
    prBranchName prData.timelineEvents
  let parents := mergeCommit.parents
  let metadata : Option GitOpMeta :=
    if gitOperation.type == "Squash" && prData.prCommits.length > 0 then
      some { (gitOperation.metadata.getD GitOpMeta.empty) with
        originalCommits := some (prData.prCommits.map (fun c => c.sha))
        squashedFrom := some prBranchName }
    else gitOperation.metadata
  let nodes1 :=
    if !nodesHas nodes mergeCommitSha then
      nodesSet nodes mergeCommitSha
        { sha := mergeCommitSha
          shortSha := jsShortSha mergeCommitSha
          message := mergeCommit.commit.message
          author := jsAuthorName mergeCommit
          date := jsDateOrNow env mergeCommit
          parents := parents
          branch := prData.prDetails.baseRef
          type := gitOperation.type
          metadata := metadata }
    else
      match nodesGet nodes mergeCommitSha with
      | some existingNode =>
        nodesSet nodes mergeCommitSha
          { existingNode with
              branch := prData.prDetails.baseRef
              type := gitOperation.type
              parents := parents
              metadata := metadata }
      | none => nodes
  (nodes1, prQueue1)

/-- One iteration of the flow's work-queue loop (entered only when the
queue is non-empty): pop a PR, skip it if already processed, otherwise mark
it processed/analyzed and fetch it through the circuit breaker; a breaker
or fetch failure is caught and the loop continues; on success process the
branch commits and, if present, the merge commit. -/
def flowStep (env : JsEnv) (gw : Nat → Except GhError PullRequestData)
    (now : Int) (st : FlowState) : FlowState :=
  match st.prQueue with
  | [] => st
  | pullRequestNumber :: rest =>
    if st.processedPRs.contains pullRequestNumber then
      { st with prQueue := rest }
    else
      let st1 : FlowState :=
        { st with
            prQueue := rest
            processedPRs := st.processedPRs ++ [pullRequestNumber]
            prsAnalyzed := st.prsAnalyzed ++ [pullRequestNumber] }
      match CircuitBreaker.execute 3 60000 st1.breaker now (gw pullRequestNumber) with
      | (.circuitOpen, breaker1) => { st1 with breaker := breaker1 }
      | (.opFailed _, breaker1) => { st1 with breaker := breaker1 }
      | (.ok prData, breaker1) =>
        let prBranchName := prData.prDetails.headRef
        let afterCommits := prData.prCommits.foldl
          (processPrCommit env prBranchName st1.processedPRs)
          (st1.nodes, st1.prQueue)
        let afterMerge :=
          match prData.mergeCommit with
          | some mergeCommit =>
            processMergeCommit env prData prBranchName st1.processedPRs
              afterCommits.1 afterCommits.2 mergeCommit
          | none => afterCommits
        { st1 with
            nodes := afterMerge.1
            prQueue := afterMerge.2
            breaker := breaker1 }

/-- The `while (prQueue.length > 0 && iterations < maxIterations)` loop;
`fuel` is the remaining iteration budget (`maxIterations = 50` at the
entry point), decremented exactly once per entered iteration. -/
def flowRun (env : JsEnv) (gw : Nat → Except GhError PullRequestData)
    (now : Int) : Nat → FlowState → FlowState
  | 0, st => st
  | fuel + 1, st =>
    if st.prQueue.isEmpty then st
    else flowRun env gw now fuel (flowStep env gw now st)

/-- Embeds `{ summary, nodes }` as returned by the flow. -/
structure AnalyzeOutput where
  summary : String
  nodes : List LineageNode
  deriving Repr, DecidableEq

/-- The per-type tally (`operationCounts`): a JS object keyed in
first-encounter order. -/
def bumpCount (acc : List (String × Nat)) (ty : String) : List (String × Nat) :=
  if acc.any (fun p => p.1 == ty) then
    acc.map (fun p => if p.1 == ty then (p.1, p.2 + 1) else p)
  else acc ++ [(ty, 1)]

/-- The initial state of one top-level call. -/
def flowInitState (initialPullRequestNumber : Nat) : FlowState :=
  { nodes := []
    prQueue := [initialPullRequestNumber]
    processedPRs := []
    prsAnalyzed := []
    breaker := CircuitBreakerState.init }

/-- The final state of one top-level call (50-iteration budget). -/
def analyzeFinalState (env : JsEnv) (gw : Nat → Except GhError PullRequestData)
    (now : Int) (initialPullRequestNumber : Nat) : FlowState :=
  flowRun env gw now 50 (flowInitState initialPullRequestNumber)

/-- The summary string built from the final state. -/
def flowSummary (st : FlowState) : String :=
  let operationCounts := st.nodes.foldl
    (fun acc p => bumpCount acc (if p.2.type = "" then "Unknown" else p.2.type)) []
  let operationSummary := String.intercalate ", "
    (operationCounts.map (fun p =>
      toString p.2 ++ " " ++ p.1 ++ (if p.2 > 1 then "s" else "")))
  "Analyzed " ++ toString st.prsAnalyzed.length ++ " pull request(s): #" ++
  String.intercalate ", #" (st.prsAnalyzed.map toString) ++ ". Found " ++
  toString st.nodes.length ++ " unique commits including " ++ operationSummary ++
  ". Enhanced detection identifies squash commits, rebases, and merge patterns."

/-- Embeds `analyzeCommitLineage` over a frozen gateway `gw`, the JS runtime
environment `env` and the call instant `now`. -/
def analyzeCommitLineage (env : JsEnv)
    (gw : Nat → Except GhError PullRequestData) (now : Int)
    (initialPullRequestNumber : Nat) : AnalyzeOutput :=
  let st := analyzeFinalState env gw now initialPullRequestNumber
  { summary := flowSummary st
    nodes := st.nodes.map (fun p => p.2) }

/-! ## The older deterministic lineage builder (the unnamed source file with
`isSquash`-driven parent correction, i.e. the variant cited alongside the
flow): its merge-commit handling classifies a squash and appends the last
feature-branch commit's sha to the merge node's parent list when the host
linkage omits it. -/

/-- The merge-commit block of the older deterministic `analyzeCommitLineage`
(unnamed part with the `isSquash` parent fix): returns the corrected parent
list and the node type for the merge commit of `prData`. -/
def part013MergeParents (prData : PullRequestData) (mergeCommit : GitHubCommit) :
    List String × String :=
  let nestedPrNumber := extractPrNumberFromMessage mergeCommit.commit.message
  let parents := mergeCommit.parents
  let isSquash :=
    !(prData.prCommits.any (fun c => c.sha == mergeCommit.sha)) &&
    (match nestedPrNumber with
     | some n => n ≠ 0
     | none => false)
  if isSquash then
    match prData.prCommits.getLast? with
    | some lastFeatureCommit =>
      (if parents.contains lastFeatureCommit.sha then parents
       else parents ++ [lastFeatureCommit.sha], "Squash")
    | none => (parents, "Squash")
  else (parents, "Merge Commit")

/-! ## Spec-side definitions (§4.3 of the spec, for comparison with the
code's folds) -/

/-- Spec §4.3: `weightedSquash = Σ(confidence·weight)` over squash-voting
verdicts. -/
def specWeightedSquash (results : List SquashDetectionResult) : ℚ :=
  ((results.filter (fun r => r.isSquash)).map (fun r => r.confidence * r.weight)).sum

/-- Spec §4.3: `weightedNonSquash = Σ(confidence·weight)` over the rest. -/
def specWeightedNonSquash (results : List SquashDetectionResult) : ℚ :=
  ((results.filter (fun r => !r.isSquash)).map (fun r => r.confidence * r.weight)).sum

/-- Spec §4.3: `totalWeight = Σ weight`. -/
def specTotalWeight (results : List SquashDetectionResult) : ℚ :=
  (results.map (fun r => r.weight)).sum

/-- The seven algorithm names in the order `detectSquash` checks them. -/
def allMethodNames : List String :=
  ["github-api-strategy", "timestamp-pattern", "author-committer-discrepancy",
   "commit-tree-structure", "github-events-api", "diff-analysis",
   "legacy-heuristics"]

/-- A commit with a present, non-empty author date (the condition under
which the flow never consults the wall clock for this commit's node). -/
def commitDateOk (c : GitHubCommit) : Bool :=
  match c.commit.author with
  | some a => a.date != ""
  | none => false

/-- The lastFailureTime of a breaker state is either untouched since
construction (`failures = 0`) or was recorded at the call's own instant:
within one top-level call the clock is frozen at `now`. -/
def breakerSync (br : CircuitBreakerState) (now : Int) : Prop :=
  br.failures = 0 ∨ br.lastFailureTime = now

/-! ## Concrete fixtures used by counterexamples and witnesses -/

/-- A fixed author identity. -/
def identA : GitIdent := ⟨"Alice", "alice@example.com", "2023-01-01T00:00:00Z"⟩

/-- A commit authored and committed by `identA`. -/
def mkCommit (sha msg : String) (parents : List String) : GitHubCommit :=
  ⟨sha, some "alice", ⟨some identA, some identA, msg⟩, parents⟩

/-- A JS environment with a fixed clock. -/
def envStd : JsEnv := ⟨fun _ => 0, "1970-01-01T00:00:00.000Z"⟩

/-- A JS environment at a later instant. -/
def envLate : JsEnv := ⟨fun _ => 0, "1999-12-31T23:59:59.000Z"⟩

/-- An octokit oracle whose every `getCommit` fails. -/
def octoErr : Octo := ⟨fun _ => .error .notFound⟩

def c1A : GitHubCommit := mkCommit "c1" "work 1" ["p0"]

def c1B : GitHubCommit := mkCommit "c2" "work 2" ["c1"]

def mcC1 : GitHubCommit := mkCommit "m" "feat: thing (#1)" ["p"]

def prDetailsC1 : PullRequestDetails :=
  ⟨true, some "m", "feat", "main", "b0", some "alice"⟩

/-- PR #1: two branch commits squashed into merge commit `m` whose only
host parent is `p`. -/
def prDataC1 : PullRequestData :=
  ⟨prDetailsC1, [c1A, c1B], some mcC1, some [], none⟩

/-- Frozen gateway for the C1 scenario. -/
def gwC1 : Nat → Except GhError PullRequestData :=
  fun n => if n = 1 then .ok prDataC1 else .error .notFound

/-- A gateway on which every fetch fails with NotFound. -/
def gwAllNotFound : Nat → Except GhError PullRequestData :=
  fun _ => .error .notFound

def commitRef2 : GitHubCommit := mkCommit "c1" "a (#2)" ["p0"]

def prDetailsOpen : PullRequestDetails := ⟨false, none, "feat", "main", "b0", none⟩

/-- PR #1 whose single commit references PR #2. -/
def prDataRef2 : PullRequestData :=
  ⟨prDetailsOpen, [commitRef2], none, some [], none⟩

/-- Gateway where PR #1 succeeds and the referenced PR #2 is Unauthorized. -/
def gwNestedUnauthorized : Nat → Except GhError PullRequestData :=
  fun n => if n = 1 then .ok prDataRef2
    else if n = 2 then .error .unauthorized else .error .notFound

/-- A commit with no author object at all (so its node date falls back to
the wall clock). -/
def commitNoDate : GitHubCommit := ⟨"n1", none, ⟨none, none, "undated"⟩, []⟩

def prDataNoDate : PullRequestData :=
  ⟨prDetailsOpen, [commitNoDate], none, some [], none⟩

/-- Frozen gateway for the C9 counterexample. -/
def gwNoDate : Nat → Except GhError PullRequestData :=
  fun n => if n = 1 then .ok prDataNoDate else .error .notFound

def mcC3 : GitHubCommit := mkCommit "m3" "feat: x (#42)" ["p1", "p2"]

def prDetailsC3 : PullRequestDetails :=
  ⟨true, some "m3", "feat", "main", "b0", some "alice"⟩

/-- A merged PR whose merge commit has two host parents. -/
def prDataC3 : PullRequestData :=
  ⟨prDetailsC3, [c1A, c1B], some mcC3, some [], none⟩

/-- Host-Merge-Strategy alone, at the default 0.6 threshold. -/
def cfgApiOnly : SquashAnalysisConfig :=
  ⟨"shallow", ["github-api-strategy"], 6/10, true⟩

def commitsC6 : List GitHubCommit :=
  [mkCommit "d1" "w1" [], mkCommit "d2" "w2" ["d1"],
   mkCommit "d3" "w3" ["d2"], mkCommit "d4" "w4" ["d3"]]

def mcC6 : GitHubCommit := mkCommit "m6" "feat: y (#9)" ["q"]

def prDetailsC6 : PullRequestDetails :=
  ⟨true, some "m6", "feat", "main", "b0", some "alice"⟩

/-- A detected squash with four branch commits, none of whose messages
contains a parenthesized PR reference. -/
def prDataC6 : PullRequestData :=
  ⟨prDetailsC6, commitsC6, some mcC6, some [], none⟩

/-- Shallow-policy config with Host-Merge-Strategy enabled. -/
def cfgShallowC6 : SquashAnalysisConfig :=
  ⟨"shallow", ["github-api-strategy"], 6/10, true⟩

/-- Deep-policy config with Host-Merge-Strategy enabled. -/
def cfgDeepC6 : SquashAnalysisConfig :=
  ⟨"deep", ["github-api-strategy"], 6/10, true⟩

/-- A depth-manager gateway: failing octokit, fixed clock, no nested PR
data. -/
def gwDeepStd : DeepGateway := ⟨octoErr, envStd, fun _ => none⟩

/-- Raw octokit fixture whose timeline response contains a `merged` event
tagged with the squash strategy (which the gateway filter must drop). -/
def octoRawStd : OctoRaw :=
  ⟨fun _ => .ok prDetailsC1,
   fun _ => .ok [c1A],
   fun s => .ok (mkCommit s "x" []),
   fun _ => .ok [⟨"merged", "t1", some "squash"⟩, ⟨"committed", "t2", none⟩,
                 ⟨"closed", "t3", none⟩]⟩

/-- The `PullRequestData` that `getPullRequestData octoRawStd 1` produces
(the `merged` and `closed` raw timeline events are filtered out). -/
def pdC10 : PullRequestData :=
  ⟨prDetailsC1, [c1A], some (mkCommit "m" "x" []),
   some [⟨"committed", "t2", none⟩], some (mkCommit "b0" "x" [])⟩

/-! ## Theorems -/

section Theorems

open AdvancedSquashDetector

/-- Helper: a singleton verdict list with a positive-weight, squash-voting
verdict whose confidence clears the threshold cross-validates to squash. -/
theorem crossValidate_single_true (cfg : SquashAnalysisConfig)
    (v : SquashDetectionResult) (hv : v.isSquash = true)
    (hw : 0 < v.weight) (hc : 0 < v.confidence)
    (hthr : cfg.confidenceThreshold ≤ v.confidence) :
    (crossValidateResults cfg [v]).isSquash = true := by
  have hlen : (([v].length == 0) = false) := rfl
  simp only [crossValidateResults, hlen, List.foldl, List.filter, hv,
    Bool.not_true, Bool.false_eq_true, reduceIte, zero_add]
  have hmax : max (v.confidence * v.weight) (0 : ℚ) = v.confidence * v.weight :=
    max_eq_left (le_of_lt (mul_pos hc hw))
  rw [hmax]
  have hdiv : v.confidence * v.weight / v.weight = v.confidence :=
    mul_div_cancel_right₀ v.confidence (ne_of_gt hw)
  rw [hdiv]
  simp only [Bool.and_eq_true, decide_eq_true_eq]
  exact ⟨mul_pos hc hw, hthr⟩

/-- C1.  For every pull request whose merge commit is classified as a
squash and that has at least one branch commit, the claim says the recorded
LineageNode carries a corrected parent list containing the last branch
commit's sha.  The flow in src/ai/flows/analyze-commit-lineage.ts violates
this: on the concrete gateway `gwC1` (PR #1, branch commits `c1`,`c2`,
merge commit `m` classified "Squash"), the emitted Squash node keeps the
host parents `["p"]` only — the branch tip `c2` lands in
`metadata.originalCommits`, not in `parents` — while the older
deterministic builder in the same repository (`part013MergeParents`, the
code the spec sentence describes, matching the in-file prompt's
instruction to add the tip sha to the parents array) appends it. -/
theorem C1_squash_parents_not_corrected :
    (analyzeCommitLineage envStd gwC1 0 1).nodes.map
        (fun n => (n.sha, n.type, n.parents)) =
      [("c1", "Commit", ["p0"]), ("c2", "Commit", ["c1"]),
       ("m", "Squash", ["p"])] ∧
    ((analyzeCommitLineage envStd gwC1 0 1).nodes.filter
        (fun n => n.type == "Squash")).map (fun n => n.metadata) =
      [some { GitOpMeta.empty with
        originalCommitCount := some 2
        originalCommits := some ["c1", "c2"]
        squashedFrom := some "feat" }] ∧
    part013MergeParents prDataC1 mcC1 = (["p", "c2"], "Squash") := by
  refine ⟨by decide, by decide, by decide⟩

/-- C3 counterexample.  A merge commit with exactly two host parents
(`mcC3`), with squash-message indicators and branch commits absent from
the base branch: the Host-Merge-Strategy algorithm — named by the claim as
parent-count-sensitive — still votes squash (it never reads the parent
list), and with that algorithm enabled the aggregate verdict is squash as
well, so neither "every parent-count-sensitive algorithm returns
isSquash=false" nor "the aggregate isSquash is false regardless" holds. -/
theorem C3_two_parent_counterexample :
    mcC3.parents.length = 2 ∧
    (detectViaGitHubAPIStrategy octoErr prDataC3 "o" "r").isSquash = true ∧
    (detectSquash octoErr envStd cfgApiOnly mcC3 [c1A, c1B] prDataC3 "o" "r").isSquash
      = true := by
  refine ⟨rfl, rfl, ?_⟩
  have hstep : detectSquash octoErr envStd cfgApiOnly mcC3 [c1A, c1B] prDataC3 "o" "r" =
      crossValidateResults cfgApiOnly
        [detectViaGitHubAPIStrategy octoErr prDataC3 "o" "r"] := rfl
  rw [hstep]
  refine crossValidate_single_true _ _ rfl ?_ ?_ ?_
  · show (0 : ℚ) < 4/10
    norm_num
  · show (0 : ℚ) < 95/100
    norm_num
  · show (6/10 : ℚ) ≤ 95/100
    norm_num

/-- C3 (amended).  For every merge commit with exactly two parents, the
two detection algorithms that actually read the parent count —
Commit-Tree-Structure and Legacy-Heuristic — return verdicts with
isSquash=false (Host-Merge-Strategy ignores the parent list, and the
aggregate verdict is not constrained by the parent count; see the
counterexample). -/
theorem C3_two_parent_tree_legacy_non_squash (octo : Octo)
    (mergeCommit : GitHubCommit) (prCommits : List GitHubCommit)
    (h : mergeCommit.parents.length = 2) :
    (detectViaCommitTreeStructure octo mergeCommit prCommits).isSquash = false ∧
    (detectViaLegacyHeuristics mergeCommit prCommits).isSquash = false := by
  constructor
  · simp only [detectViaCommitTreeStructure]
    split
    · rfl
    · split
      · rfl
      · split
        · rfl
        · simp [h]
  · simp [detectViaLegacyHeuristics, h]

/-- C3 witness: the amended statement at the concrete two-parent merge
commit `mcC3`. -/
theorem C3_two_parent_tree_legacy_non_squash_witness :
    mcC3.parents.length = 2 ∧
    (detectViaCommitTreeStructure octoErr mcC3 [c1A, c1B]).isSquash = false ∧
    (detectViaLegacyHeuristics mcC3 [c1A, c1B]).isSquash = false := by
  have h := C3_two_parent_tree_legacy_non_squash octoErr mcC3 [c1A, c1B] rfl
  exact ⟨rfl, h.1, h.2⟩

/-- C4 counterexample.  The claim says a NotFound on the initial PR aborts
the call with no result, and an Unauthorized aborts immediately wherever it
occurs.  On the code: with every fetch NotFound (`gwAllNotFound`), the
top-level call still returns a normal result (empty node list, summary
reporting PR #1 as analyzed); with PR #1 fine and nested PR #2
Unauthorized (`gwNestedUnauthorized`), the call neither aborts nor stops —
both PRs are reported analyzed and PR #1's commit is emitted. -/
theorem C4_fetch_errors_swallowed :
    (analyzeCommitLineage envStd gwAllNotFound 0 1).nodes = [] ∧
    (analyzeCommitLineage envStd gwAllNotFound 0 1).summary =
      "Analyzed 1 pull request(s): #1. Found 0 unique commits including . Enhanced detection identifies squash commits, rebases, and merge patterns." ∧
    (analyzeCommitLineage envStd gwNestedUnauthorized 0 1).nodes.map
      (fun n => n.sha) = ["c1"] ∧
    (analyzeCommitLineage envStd gwNestedUnauthorized 0 1).summary =
      "Analyzed 2 pull request(s): #1, #2. Found 1 unique commits including 1 Commit. Enhanced detection identifies squash commits, rebases, and merge patterns." := by
  exact ⟨by decide, by decide, by decide, by decide⟩

/-- C4 (amended).  Every fetch failure — NotFound, Unauthorized,
RateLimited, Timeout or transport, on the initial PR as much as on a
nested one — is caught inside the work-queue loop: the failing PR is
skipped (still marked processed/analyzed, the failure counted against the
breaker) and the call returns a normal result; in particular, when the
initial PR's fetch fails the call completes with that PR analyzed and an
empty node list instead of aborting. -/
theorem C4_initial_fetch_error_skipped (env : JsEnv)
    (gw : Nat → Except GhError PullRequestData) (now : Int) (pr : Nat)
    (e : GhError) (h : gw pr = .error e) :
    analyzeFinalState env gw now pr =
      { nodes := [], prQueue := [], processedPRs := [pr], prsAnalyzed := [pr],
        breaker := ⟨1, now⟩ } ∧
    (analyzeCommitLineage env gw now pr).nodes = [] := by
  have hstep : flowStep env gw now
      { nodes := [], prQueue := [pr], processedPRs := [], prsAnalyzed := [],
        breaker := CircuitBreakerState.init } =
      { nodes := [], prQueue := [], processedPRs := [pr], prsAnalyzed := [pr],
        breaker := ⟨1, now⟩ } := by
    simp [flowStep, CircuitBreaker.execute, CircuitBreaker.isOpen,
      CircuitBreakerState.init, h, CircuitBreaker.onFailure]
  have hfs : analyzeFinalState env gw now pr =
      { nodes := [], prQueue := [], processedPRs := [pr], prsAnalyzed := [pr],
        breaker := ⟨1, now⟩ } := by
    unfold analyzeFinalState
    rw [show (50 : Nat) = 49 + 1 from rfl, flowRun]
    simp only [flowInitState, List.isEmpty_cons, Bool.false_eq_true, if_false,
      reduceIte]
    rw [hstep]
    rw [show (49 : Nat) = 48 + 1 from rfl, flowRun]
    simp
  refine ⟨hfs, ?_⟩
  unfold analyzeCommitLineage
  rw [hfs]
  rfl

/-- C4 witness: the amended statement at the concrete all-NotFound
gateway. -/
theorem C4_initial_fetch_error_skipped_witness :
    analyzeFinalState envStd gwAllNotFound 0 7 =
      { nodes := [], prQueue := [], processedPRs := [7], prsAnalyzed := [7],
        breaker := ⟨1, 0⟩ } ∧
    (analyzeCommitLineage envStd gwAllNotFound 0 7).nodes = [] :=
  C4_initial_fetch_error_skipped envStd gwAllNotFound 0 7 GhError.notFound rfl

/-- C9 counterexample.  Two top-level calls against the frozen gateway
`gwNoDate` (whose single branch commit has no author object) at two
different wall-clock instants each produce exactly one node, but the node
lists differ — the node's `date` field is the call's own
`new Date().toISOString()` — so the outputs are not identical even up to
order. -/
theorem C9_clock_dependent_counterexample :
    (analyzeCommitLineage envStd gwNoDate 0 1).nodes.length = 1 ∧
    (analyzeCommitLineage envLate gwNoDate 0 1).nodes.length = 1 ∧
    (analyzeCommitLineage envStd gwNoDate 0 1).nodes ≠
      (analyzeCommitLineage envLate gwNoDate 0 1).nodes ∧
    (analyzeCommitLineage envStd gwNoDate 0 1).nodes.map (fun n => n.date) =
      [envStd.nowIso] := by
  exact ⟨by decide, by decide, by decide, by decide⟩

/-- Helper: a `reduce`-style left fold of `init + Σ f` equals `init` plus
the mapped sum. -/
theorem foldl_add_eq_sum (f : SquashDetectionResult → ℚ) :
    ∀ (l : List SquashDetectionResult) (init : ℚ),
      l.foldl (fun s r => s + f r) init = init + (l.map f).sum := by
  intro l
  induction l with
  | nil => intro init; simp
  | cons a t ih =>
    intro init
    simp only [List.foldl, List.map, List.sum_cons]
    rw [ih]
    ring

/-- Helper: summing `if p a then f a else 0` over a list equals summing `f`
over the filtered list. -/
theorem sum_map_ite_eq_filter (p : SquashDetectionResult → Bool)
    (f : SquashDetectionResult → ℚ) :
    ∀ (l : List SquashDetectionResult),
      (l.map (fun a => if p a then f a else 0)).sum =
        ((l.filter p).map f).sum := by
  intro l
  induction l with
  | nil => simp
  | cons a t ih =>
    by_cases h : p a
    · simp [List.filter, h, ih]
    · simp [List.filter, h, ih]

/-- Helper: the sum over a filtered list is bounded by the sum over the
whole list when the summand is nonnegative. -/
theorem sum_filter_le_sum (p : SquashDetectionResult → Bool)
    (f : SquashDetectionResult → ℚ) :
    ∀ (l : List SquashDetectionResult), (∀ a ∈ l, 0 ≤ f a) →
      ((l.filter p).map f).sum ≤ (l.map f).sum := by
  intro l
  induction l with
  | nil => simp
  | cons a t ih =>
    intro h
    by_cases hp : p a
    · simp only [List.filter, hp, List.map, List.sum_cons]
      have := ih (fun x hx => h x (List.mem_cons_of_mem a hx))
      linarith
    · simp only [List.filter, hp, Bool.false_eq_true, List.map, List.sum_cons]
      have h0 : 0 ≤ f a := h a (List.mem_cons_self a t)
      have := ih (fun x hx => h x (List.mem_cons_of_mem a hx))
      linarith

/-- Helper: the confidence and squash decision of `crossValidateResults` on
a non-empty verdict list, in terms of the spec-side sums. -/
theorem crossValidate_cons (config : SquashAnalysisConfig)
    (a : SquashDetectionResult) (l : List SquashDetectionResult) :
    (crossValidateResults config (a :: l)).confidence =
      max (specWeightedSquash (a :: l)) (specWeightedNonSquash (a :: l)) /
        specTotalWeight (a :: l) ∧
    (crossValidateResults config (a :: l)).isSquash =
      (decide (specWeightedNonSquash (a :: l) < specWeightedSquash (a :: l)) &&
       decide (config.confidenceThreshold ≤
         max (specWeightedSquash (a :: l)) (specWeightedNonSquash (a :: l)) /
           specTotalWeight (a :: l))) := by
  have hlen : (((a :: l).length == 0) = false) := by simp
  have hS : (a :: l).foldl
      (fun sum r => sum + (if r.isSquash then r.confidence * r.weight else 0)) 0 =
      specWeightedSquash (a :: l) := by
    rw [foldl_add_eq_sum (fun r => if r.isSquash then r.confidence * r.weight else 0)]
    rw [sum_map_ite_eq_filter (fun r => r.isSquash) (fun r => r.confidence * r.weight)]
    simp [specWeightedSquash]
  have hN : (a :: l).foldl
      (fun sum r => sum + (if !r.isSquash then r.confidence * r.weight else 0)) 0 =
      specWeightedNonSquash (a :: l) := by
    rw [foldl_add_eq_sum (fun r => if !r.isSquash then r.confidence * r.weight else 0)]
    rw [sum_map_ite_eq_filter (fun r => !r.isSquash) (fun r => r.confidence * r.weight)]
    simp [specWeightedNonSquash]
  have hT : (a :: l).foldl (fun sum r => sum + r.weight) 0 =
      specTotalWeight (a :: l) := by
    rw [foldl_add_eq_sum (fun r => r.weight)]
    simp [specTotalWeight]
  constructor
  · simp only [crossValidateResults, hlen, Bool.false_eq_true, reduceIte,
      hS, hN, hT]
  · simp only [crossValidateResults, hlen, Bool.false_eq_true, reduceIte,
      hS, hN, hT, gt_iff_lt, ge_iff_le]

/-- C2.  The cross-validator computes exactly the spec §4.3 combination:
on a non-empty verdict list the returned confidence is
`max(weightedSquash, weightedNonSquash) / totalWeight` and the returned
isSquash holds iff the squash-weighted score strictly exceeds the
non-squash score and the confidence meets the configured threshold; the
empty list yields `isSquash = false` and confidence `0`; and whenever
every confidence lies in `[0,1]` and every weight is positive, the
returned confidence lies in `[0,1]`. -/
theorem C2_cross_validator_formula (config : SquashAnalysisConfig)
    (results : List SquashDetectionResult) :
    (results ≠ [] →
      (crossValidateResults config results).confidence =
        max (specWeightedSquash results) (specWeightedNonSquash results) /
          specTotalWeight results) ∧
    (results ≠ [] →
      ((crossValidateResults config results).isSquash = true ↔
        (specWeightedNonSquash results < specWeightedSquash results ∧
         config.confidenceThreshold ≤
           max (specWeightedSquash results) (specWeightedNonSquash results) /
             specTotalWeight results))) ∧
    (crossValidateResults config []).isSquash = false ∧
    (crossValidateResults config []).confidence = 0 ∧
    ((∀ r ∈ results, 0 ≤ r.confidence ∧ r.confidence ≤ 1) →
     (∀ r ∈ results, 0 < r.weight) →
     0 ≤ (crossValidateResults config results).confidence ∧
       (crossValidateResults config results).confidence ≤ 1) := by
  refine ⟨?_, ?_, rfl, rfl, ?_⟩
  · intro hne
    cases results with
    | nil => exact absurd rfl hne
    | cons a l => exact (crossValidate_cons config a l).1
  · intro hne
    cases results with
    | nil => exact absurd rfl hne
    | cons a l =>
      rw [(crossValidate_cons config a l).2]
      simp only [Bool.and_eq_true, decide_eq_true_eq]
  · intro hconf hw
    cases results with
    | nil => norm_num [crossValidateResults]
    | cons a l =>
      rw [(crossValidate_cons config a l).1]
      have hwnn : ∀ r ∈ a :: l, (0 : ℚ) ≤ r.confidence * r.weight :=
        fun r hr => mul_nonneg (hconf r hr).1 (le_of_lt (hw r hr))
      have hSnn : 0 ≤ specWeightedSquash (a :: l) := by
        apply List.sum_nonneg
        intro x hx
        obtain ⟨r, hr, rfl⟩ := List.mem_map.mp hx
        exact hwnn r (List.mem_of_mem_filter hr)
      have hNnn : 0 ≤ specWeightedNonSquash (a :: l) := by
        apply List.sum_nonneg
        intro x hx
        obtain ⟨r, hr, rfl⟩ := List.mem_map.mp hx
        exact hwnn r (List.mem_of_mem_filter hr)
      have hTpos : 0 < specTotalWeight (a :: l) := by
        apply List.sum_pos
        · intro x hx
          obtain ⟨r, hr, rfl⟩ := List.mem_map.mp hx
          exact hw r hr
        · simp
      have hle : ∀ (p : SquashDetectionResult → Bool),
          (((a :: l).filter p).map (fun r => r.confidence * r.weight)).sum ≤
            specTotalWeight (a :: l) := by
        intro p
        calc (((a :: l).filter p).map (fun r => r.confidence * r.weight)).sum
            ≤ ((a :: l).map (fun r => r.confidence * r.weight)).sum :=
              sum_filter_le_sum p _ _ hwnn
          _ ≤ ((a :: l).map (fun r => r.weight)).sum := by
              apply List.sum_le_sum
              intro r hr
              have h1 := (hconf r hr).2
              have h2 := hw r hr
              nlinarith
          _ = specTotalWeight (a :: l) := rfl
      constructor
      · exact div_nonneg (le_trans hSnn (le_max_left _ _)) (le_of_lt hTpos)
      · rw [div_le_one hTpos]
        exact max_le (hle _) (hle _)

/-- C2 witness: the formula, the empty case and the `[0,1]` bound at a
concrete two-verdict list under the default configuration. -/
theorem C2_cross_validator_formula_witness :
    ((detectViaLegacyHeuristics mcC1 [c1A, c1B]) :: [] ≠ [] →
      (crossValidateResults (AnalysisDepthManager.getDefaultConfig "shallow")
        [detectViaLegacyHeuristics mcC1 [c1A, c1B]]).confidence =
        max (specWeightedSquash [detectViaLegacyHeuristics mcC1 [c1A, c1B]])
          (specWeightedNonSquash [detectViaLegacyHeuristics mcC1 [c1A, c1B]]) /
          specTotalWeight [detectViaLegacyHeuristics mcC1 [c1A, c1B]]) ∧
    (0 ≤ (crossValidateResults (AnalysisDepthManager.getDefaultConfig "shallow")
        [detectViaLegacyHeuristics mcC1 [c1A, c1B]]).confidence ∧
      (crossValidateResults (AnalysisDepthManager.getDefaultConfig "shallow")
        [detectViaLegacyHeuristics mcC1 [c1A, c1B]]).confidence ≤ 1) := by
  have h := C2_cross_validator_formula
    (AnalysisDepthManager.getDefaultConfig "shallow")
    [detectViaLegacyHeuristics mcC1 [c1A, c1B]]
  refine ⟨h.1, h.2.2.2.2 ?_ ?_⟩
  · intro r hr
    rw [List.mem_singleton] at hr
    subst hr
    constructor
    · show (0 : ℚ) ≤ (detectViaLegacyHeuristics mcC1 [c1A, c1B]).confidence
      have : (detectViaLegacyHeuristics mcC1 [c1A, c1B]).confidence = 7/10 := rfl
      rw [this]; norm_num
    · have : (detectViaLegacyHeuristics mcC1 [c1A, c1B]).confidence = 7/10 := rfl
      rw [this]; norm_num
  · intro r hr
    rw [List.mem_singleton] at hr
    subst hr
    have : (detectViaLegacyHeuristics mcC1 [c1A, c1B]).weight = 1/10 := rfl
    rw [this]; norm_num

/-- C8.  The circuit-breaker contract at the constructed defaults
(max 3 failures, 60s reset window): `execute` fails fast with the distinct
open-circuit outcome, leaving the state untouched, exactly when the failure
counter is at least 3 and less than 60s has passed since the last recorded
failure; once the window has elapsed the operation runs again (its outcome
is returned); a successful operation resets the counter to zero; a failed
operation (breaker closed) increments the counter and records the failure
instant. -/
theorem C8_circuit_breaker_contract (st : CircuitBreakerState) (now : Int)
    (op : Except GhError PullRequestData) :
    (((CircuitBreaker.execute 3 60000 st now op).1 = CBOutcome.circuitOpen ∧
       (CircuitBreaker.execute 3 60000 st now op).2 = st) ↔
      (3 ≤ st.failures ∧ now - st.lastFailureTime < 60000)) ∧
    (60000 ≤ now - st.lastFailureTime →
      CircuitBreaker.execute 3 60000 st now op =
        (match op with
         | .ok a => (CBOutcome.ok a, CircuitBreaker.onSuccess st)
         | .error e => (CBOutcome.opFailed e, CircuitBreaker.onFailure st now))) ∧
    (∀ a, op = .ok a → ¬(3 ≤ st.failures ∧ now - st.lastFailureTime < 60000) →
      (CircuitBreaker.execute 3 60000 st now op).2.failures = 0) ∧
    (∀ e, op = .error e → ¬(3 ≤ st.failures ∧ now - st.lastFailureTime < 60000) →
      (CircuitBreaker.execute 3 60000 st now op).2 =
        ⟨st.failures + 1, now⟩) := by
  have hopen : CircuitBreaker.isOpen 3 60000 st now = true ↔
      (3 ≤ st.failures ∧ now - st.lastFailureTime < 60000) := by
    simp [CircuitBreaker.isOpen]
  refine ⟨?_, ?_, ?_, ?_⟩
  · constructor
    · intro ⟨h1, _⟩
      by_cases ho : CircuitBreaker.isOpen 3 60000 st now = true
      · exact hopen.mp ho
      · exfalso
        simp only [CircuitBreaker.execute, ho, Bool.false_eq_true, reduceIte] at h1
        cases op with
        | ok a => simp at h1
        | error e => simp at h1
    · intro hc
      have ho := hopen.mpr hc
      simp [CircuitBreaker.execute, ho]
  · intro helapsed
    have ho : CircuitBreaker.isOpen 3 60000 st now = false := by
      simp only [CircuitBreaker.isOpen, Bool.and_eq_false_iff]
      right
      simp only [decide_eq_false_iff_not, not_lt]
      exact helapsed
    simp only [CircuitBreaker.execute, ho, Bool.false_eq_true, reduceIte]
    cases op <;> rfl
  · intro a hop hno
    have ho : CircuitBreaker.isOpen 3 60000 st now = false := by
      rw [← Bool.not_eq_true]
      intro hx
      exact hno (hopen.mp hx)
    simp [CircuitBreaker.execute, ho, hop, CircuitBreaker.onSuccess]
  · intro e hop hno
    have ho : CircuitBreaker.isOpen 3 60000 st now = false := by
      rw [← Bool.not_eq_true]
      intro hx
      exact hno (hopen.mp hx)
    simp [CircuitBreaker.execute, ho, hop, CircuitBreaker.onFailure]

/-- C8 witness: the contract at the concrete open state `⟨3, 100⟩`,
`now = 50`, with a failing operation: it fails fast and leaves the state
untouched; and at the fresh state a failure records `⟨1, now⟩`. -/
theorem C8_circuit_breaker_contract_witness :
    ((CircuitBreaker.execute 3 60000 (⟨3, 100⟩ : CircuitBreakerState) 50
        (Except.error GhError.timeout : Except GhError PullRequestData)).1 = CBOutcome.circuitOpen ∧
      (CircuitBreaker.execute 3 60000 (⟨3, 100⟩ : CircuitBreakerState) 50
        (Except.error GhError.timeout : Except GhError PullRequestData)).2 = (⟨3, 100⟩ : CircuitBreakerState)) ∧
    (CircuitBreaker.execute 3 60000 CircuitBreakerState.init 50
        (Except.error GhError.timeout : Except GhError PullRequestData)).2 =
      (⟨1, 50⟩ : CircuitBreakerState) := by
  constructor
  · exact (C8_circuit_breaker_contract ⟨3, 100⟩ 50
      (Except.error GhError.timeout : Except GhError PullRequestData)).1.mpr
      (by constructor <;> decide)
  · exact (C8_circuit_breaker_contract CircuitBreakerState.init 50
      (Except.error GhError.timeout : Except GhError PullRequestData)).2.2.2
      GhError.timeout rfl (by decide)

/-- C10.  Every `PullRequestData` produced by `getPullRequestData` carries
a timeline containing only `head_ref_force_pushed`, `base_ref_changed` or
`committed` events — never `merged` — so on gateway-fetched data the
Host-Events-Timeline algorithm finds no merged/closed events at all and
returns `isSquash = false` with the floor confidence `0.1`. -/
theorem C10_gateway_timeline_no_merged (octo : OctoRaw) (n : Nat)
    (pd : PullRequestData) (h : getPullRequestData octo n = .ok pd) :
    (∀ ev ∈ pd.timelineEvents.getD [], ev.event ≠ "merged" ∧
      (ev.event = "head_ref_force_pushed" ∨ ev.event = "base_ref_changed" ∨
       ev.event = "committed")) ∧
    (detectViaGitHubEventsAPI pd).isSquash = false ∧
    (detectViaGitHubEventsAPI pd).confidence = 1/10 := by
  have hmem : ∀ ev ∈ pd.timelineEvents.getD [],
      ev.event = "head_ref_force_pushed" ∨ ev.event = "base_ref_changed" ∨
      ev.event = "committed" := by
    simp only [getPullRequestData] at h
    cases hp : octo.pullsGet n with
    | error e => rw [hp] at h; simp at h
    | ok prDetails =>
      rw [hp] at h
      cases hc : octo.listCommits n with
      | error e => rw [hc] at h; simp at h
      | ok prCommits =>
        rw [hc] at h
        simp only [Except.ok.injEq] at h
        subst h
        intro ev hev
        simp only [Option.getD_some] at hev
        cases he : octo.listEventsForTimeline n with
        | error e2 => rw [he] at hev; simp at hev
        | ok evs =>
          rw [he] at hev
          have hpred := (List.mem_filter.mp hev).2
          simpa using hpred
  have hnil : (pd.timelineEvents.getD []).filter
      (fun e => e.event == "merged" || e.event == "closed") = [] := by
    rw [List.filter_eq_nil_iff]
    intro ev hev
    rcases hmem ev hev with h1 | h1 | h1 <;> simp [h1]
  refine ⟨?_, ?_, ?_⟩
  · intro ev hev
    rcases hmem ev hev with h1 | h1 | h1 <;> simp [h1]
  · simp [detectViaGitHubEventsAPI, hnil]
  · simp [detectViaGitHubEventsAPI, hnil]

/-- C10 witness: the gateway invariant at the concrete raw octokit fixture
whose raw timeline includes a `merged` event tagged `squash` (dropped by
the filter). -/
theorem C10_gateway_timeline_no_merged_witness :
    (∀ ev ∈ pdC10.timelineEvents.getD [], ev.event ≠ "merged" ∧
      (ev.event = "head_ref_force_pushed" ∨ ev.event = "base_ref_changed" ∨
       ev.event = "committed")) ∧
    (detectViaGitHubEventsAPI pdC10).isSquash = false ∧
    (detectViaGitHubEventsAPI pdC10).confidence = 1/10 :=
  C10_gateway_timeline_no_merged octoRawStd 1 pdC10 rfl

/-- Helper: one loop iteration keeps the analyzed list equal to the visited
set, keeps it duplicate-free, and grows it by at most one entry. -/
theorem flowStep_visited_inv (env : JsEnv)
    (gw : Nat → Except GhError PullRequestData) (now : Int) (st : FlowState)
    (h1 : st.prsAnalyzed = st.processedPRs) (h2 : st.prsAnalyzed.Nodup) :
    (flowStep env gw now st).prsAnalyzed = (flowStep env gw now st).processedPRs ∧
    (flowStep env gw now st).prsAnalyzed.Nodup ∧
    (flowStep env gw now st).prsAnalyzed.length ≤ st.prsAnalyzed.length + 1 := by
  simp only [flowStep]
  cases hq : st.prQueue with
  | nil => exact ⟨h1, h2, Nat.le_succ _⟩
  | cons pr rest =>
    by_cases hc : st.processedPRs.contains pr = true
    · simp only [hc, reduceIte]
      exact ⟨h1, h2, Nat.le_succ _⟩
    · simp only [hc, Bool.false_eq_true, reduceIte]
      have hmem : pr ∉ st.prsAnalyzed := by
        rw [h1]
        intro hin
        exact hc (List.elem_eq_true_of_mem hin)
      have hnodup : (st.prsAnalyzed ++ [pr]).Nodup := by
        simp [List.nodup_append, h2, hmem]
      have hlen : (st.prsAnalyzed ++ [pr]).length = st.prsAnalyzed.length + 1 := by
        simp
      split
      · exact ⟨by rw [h1], hnodup, le_of_eq hlen⟩
      · exact ⟨by rw [h1], hnodup, le_of_eq hlen⟩
      · exact ⟨by rw [h1], hnodup, le_of_eq hlen⟩

/-- Helper: over any fuel budget, the analyzed list stays equal to the
visited set, duplicate-free, and grows by at most `fuel` entries. -/
theorem flowRun_visited_inv (env : JsEnv)
    (gw : Nat → Except GhError PullRequestData) (now : Int) :
    ∀ (fuel : Nat) (st : FlowState),
      st.prsAnalyzed = st.processedPRs → st.prsAnalyzed.Nodup →
      (flowRun env gw now fuel st).prsAnalyzed =
        (flowRun env gw now fuel st).processedPRs ∧
      (flowRun env gw now fuel st).prsAnalyzed.Nodup ∧
      (flowRun env gw now fuel st).prsAnalyzed.length ≤
        st.prsAnalyzed.length + fuel := by
  intro fuel
  induction fuel with
  | zero => intro st h1 h2; exact ⟨h1, h2, Nat.le_refl _⟩
  | succ f ih =>
    intro st h1 h2
    rw [flowRun]
    by_cases he : st.prQueue.isEmpty = true
    · simp only [he, reduceIte]
      exact ⟨h1, h2, Nat.le_add_right _ _⟩
    · simp only [he, Bool.false_eq_true, reduceIte]
      obtain ⟨s1, s2, s3⟩ := flowStep_visited_inv env gw now st h1 h2
      obtain ⟨r1, r2, r3⟩ := ih (flowStep env gw now st) s1 s2
      exact ⟨r1, r2, by omega⟩

/-- Helper: `setShallowComplete` does not touch the `maxDepthReached`
flag. -/
theorem setShallowComplete_maxDepth (m : AnalysisMeta) (k : Nat) :
    (m.setShallowComplete k).maxDepthReached = m.maxDepthReached := by
  cases m; rfl

/-- Helper: `setMaxDepthReached` sets the flag. -/
theorem setMaxDepthReached_flag (m : AnalysisMeta) :
    m.setMaxDepthReached.maxDepthReached = some true := by
  cases m; rfl

/-- C5.  (1) The top-level work-queue loop performs at most 50 iterations
and follows only unvisited PR numbers: the analyzed list of a top-level
call is duplicate-free (each PR processed at most once, also on cyclic
references) and has at most 50 entries.  (2) Deep analysis at the depth
cap (`currentDepth ≥ 5`) does not recurse: it returns the shallow emission
of the remaining subtree with the `maxDepthReached` flag set.  (3) The
deep commit loop never follows a PR number already in the per-call visited
set: such a commit is emitted as a plain node and the walk continues with
the set unchanged. -/
theorem C5_bounded_recursion (env : JsEnv)
    (gw : Nat → Except GhError PullRequestData) (now : Int) (pr : Nat)
    (gwD : DeepGateway) (config : SquashAnalysisConfig) (fuel : Nat)
    (mergeCommit : GitHubCommit) (prCommits : List GitHubCommit)
    (prData : PullRequestData) (repoOwner repoName : String)
    (squashResult : AggResult) (processedPRs : List Nat) (currentDepth : Nat)
    (meta : AnalysisMeta) (commit : GitHubCommit) (rest : List GitHubCommit)
    (acc : List DepthCommitNode) (nested : List (Nat × Nat × AnalysisMeta))
    (n : Nat) :
    ((analyzeFinalState env gw now pr).prsAnalyzed.Nodup ∧
     (analyzeFinalState env gw now pr).prsAnalyzed.length ≤ 50) ∧
    (5 ≤ currentDepth →
      AnalysisDepthManager.performDeepAnalysisAux fuel gwD config mergeCommit
          prCommits prData repoOwner repoName squashResult processedPRs
          currentDepth meta =
        (AnalysisDepthManager.performShallowAnalysis gwD.env mergeCommit
          prCommits prData squashResult meta.setMaxDepthReached,
         processedPRs) ∧
      (AnalysisDepthManager.performDeepAnalysisAux fuel gwD config mergeCommit
          prCommits prData repoOwner repoName squashResult processedPRs
          currentDepth meta).1.analysisMetadata.maxDepthReached = some true) ∧
    (extractPrNumberFromMessage commit.commit.message = some n →
     n ∈ processedPRs →
      AnalysisDepthManager.deepCommitsLoop fuel gwD config prData repoOwner
          repoName currentDepth (commit :: rest) processedPRs acc nested =
        AnalysisDepthManager.deepCommitsLoop fuel gwD config prData repoOwner
          repoName currentDepth rest processedPRs
          (acc ++ [AnalysisDepthManager.createCommitNode gwD.env commit prData
            { AnalysisDepthManager.noMeta with
                analysisDepth := some "deep"
                currentDepth := some currentDepth }]) nested) := by
  refine ⟨?_, ?_, ?_⟩
  · have h := flowRun_visited_inv env gw now 50 (flowInitState pr) rfl
      List.nodup_nil
    exact ⟨h.2.1, by simpa [flowInitState] using h.2.2⟩
  · intro hd
    have hcap : AnalysisDepthManager.performDeepAnalysisAux fuel gwD config
        mergeCommit prCommits prData repoOwner repoName squashResult
        processedPRs currentDepth meta =
      (AnalysisDepthManager.performShallowAnalysis gwD.env mergeCommit
        prCommits prData squashResult meta.setMaxDepthReached, processedPRs) := by
      rw [AnalysisDepthManager.performDeepAnalysisAux.eq_def]
      simp only [AnalysisDepthManager.maxDepth, ge_iff_le, hd, reduceIte]
    refine ⟨hcap, ?_⟩
    rw [hcap]
    simp only [AnalysisDepthManager.performShallowAnalysis]
    rw [setShallowComplete_maxDepth, setMaxDepthReached_flag]
  · intro hx hn
    have hcontains : processedPRs.contains n = true :=
      List.elem_eq_true_of_mem hn
    rw [AnalysisDepthManager.deepCommitsLoop.eq_def]
    simp only [hx, hcontains, Bool.not_true, Bool.and_false,
      Bool.false_eq_true, reduceIte]

/-- C5 witness: bounded recursion at concrete inputs — the C1 gateway run
(one analyzed PR, no duplicates), the depth cap at `currentDepth = 5`, and
a commit referencing the already-visited PR #2. -/
theorem C5_bounded_recursion_witness :
    ((analyzeFinalState envStd gwC1 0 1).prsAnalyzed.Nodup ∧
     (analyzeFinalState envStd gwC1 0 1).prsAnalyzed.length ≤ 50) ∧
    (AnalysisDepthManager.performDeepAnalysisAux 1 gwDeepStd cfgDeepC6 mcC6
        commitsC6 prDataC6 "o" "r" ⟨true, 1, [], "r"⟩ [] 5
        (.mk [] "deep" 5 "r" none none none none none []) =
      (AnalysisDepthManager.performShallowAnalysis gwDeepStd.env mcC6
        commitsC6 prDataC6 ⟨true, 1, [], "r"⟩
        (AnalysisMeta.mk [] "deep" 5 "r" none none none none none
          []).setMaxDepthReached, []) ∧
     (AnalysisDepthManager.performDeepAnalysisAux 1 gwDeepStd cfgDeepC6 mcC6
        commitsC6 prDataC6 "o" "r" ⟨true, 1, [], "r"⟩ [] 5
        (.mk [] "deep" 5 "r" none none none none none
          [])).1.analysisMetadata.maxDepthReached = some true) ∧
    (AnalysisDepthManager.deepCommitsLoop 1 gwDeepStd cfgDeepC6 prDataC6 "o"
        "r" 0 [commitRef2] [2] [] [] =
      AnalysisDepthManager.deepCommitsLoop 1 gwDeepStd cfgDeepC6 prDataC6 "o"
        "r" 0 [] [2]
        ([] ++ [AnalysisDepthManager.createCommitNode gwDeepStd.env commitRef2
          prDataC6
          { AnalysisDepthManager.noMeta with
              analysisDepth := some "deep"
              currentDepth := some 0 }]) []) := by
  have h := C5_bounded_recursion envStd gwC1 0 1 gwDeepStd cfgDeepC6 1 mcC6
    commitsC6 prDataC6 "o" "r" ⟨true, 1, [], "r"⟩ [] 5
    (.mk [] "deep" 5 "r" none none none none none []) commitRef2 [] [] [] 2
  refine ⟨h.1, h.2.1 (by decide), ?_⟩
  have h2 := C5_bounded_recursion envStd gwC1 0 1 gwDeepStd cfgDeepC6 1 mcC6
    commitsC6 prDataC6 "o" "r" ⟨true, 1, [], "r"⟩ [2] 0
    (.mk [] "deep" 0 "r" none none none none none []) commitRef2 [] [] [] 2
  exact h2.2.2 (by decide) (by decide)

/-- Helper: the deep commit loop on commits with no parenthesized PR
reference emits exactly one "Expanded Commit" node per commit, leaving the
visited set and nested-analysis log untouched. -/
theorem deepCommitsLoop_no_refs (fuel : Nat) (gwD : DeepGateway)
    (config : SquashAnalysisConfig) (prData : PullRequestData) (o r : String)
    (d : Nat) :
    ∀ (commits : List GitHubCommit) (processed : List Nat)
      (acc : List DepthCommitNode) (nested : List (Nat × Nat × AnalysisMeta)),
      (∀ c ∈ commits, extractPrNumberFromMessage c.commit.message = none) →
      AnalysisDepthManager.deepCommitsLoop fuel gwD config prData o r d commits
          processed acc nested =
        (acc ++ commits.map (fun c => AnalysisDepthManager.createCommitNode
            gwD.env c prData
            { AnalysisDepthManager.noMeta with
                analysisDepth := some "deep", currentDepth := some d }),
         processed, nested) := by
  intro commits
  induction commits with
  | nil =>
    intro processed acc nested _
    rw [AnalysisDepthManager.deepCommitsLoop.eq_def]
    simp
  | cons c rest ih =>
    intro processed acc nested h
    rw [AnalysisDepthManager.deepCommitsLoop.eq_def]
    have hc := h c (List.mem_cons_self c rest)
    simp only [hc]
    rw [ih processed
      (acc ++ [AnalysisDepthManager.createCommitNode gwD.env c prData
        { AnalysisDepthManager.noMeta with
            analysisDepth := some "deep", currentDepth := some d }]) nested
      (fun x hx => h x (List.mem_cons_of_mem _ hx))]
    simp

/-- Helper: `analyzeWithDepth` under the shallow policy with a detected
squash dispatches to `performShallowAnalysis`, with the visited set
returned unchanged. -/
theorem analyzeWithDepthAux_shallow_eq (fuel : Nat) (gwD : DeepGateway)
    (config : SquashAnalysisConfig) (mc : GitHubCommit)
    (prCommits : List GitHubCommit) (prData : PullRequestData) (o r : String)
    (processed : List Nat) (d : Nat)
    (hdep : config.analysisDepth = "shallow")
    (hsq : (detectSquash gwD.octo gwD.env config mc prCommits prData o r).isSquash
      = true) :
    AnalysisDepthManager.analyzeWithDepthAux fuel gwD config mc prCommits
        prData o r processed d =
      (AnalysisDepthManager.performShallowAnalysis gwD.env mc prCommits prData
        (detectSquash gwD.octo gwD.env config mc prCommits prData o r)
        (.mk (detectSquash gwD.octo gwD.env config mc prCommits prData o r).methods
          config.analysisDepth d
          (detectSquash gwD.octo gwD.env config mc prCommits prData o r).reasoning
          none none none none none []),
       processed) := by
  rw [AnalysisDepthManager.analyzeWithDepthAux.eq_def]
  simp [hsq, hdep]

/-- Helper: `analyzeWithDepth` under a non-shallow policy with a detected
squash dispatches to `performDeepAnalysisAux`. -/
theorem analyzeWithDepthAux_deep_dispatch (fuel : Nat) (gwD : DeepGateway)
    (config : SquashAnalysisConfig) (mc : GitHubCommit)
    (prCommits : List GitHubCommit) (prData : PullRequestData) (o r : String)
    (processed : List Nat) (d : Nat)
    (hdep : config.analysisDepth = "deep")
    (hsq : (detectSquash gwD.octo gwD.env config mc prCommits prData o r).isSquash
      = true) :
    AnalysisDepthManager.analyzeWithDepthAux fuel gwD config mc prCommits
        prData o r processed d =
      AnalysisDepthManager.performDeepAnalysisAux fuel gwD config mc prCommits
        prData o r (detectSquash gwD.octo gwD.env config mc prCommits prData o r)
        processed d
        (.mk (detectSquash gwD.octo gwD.env config mc prCommits prData o r).methods
          config.analysisDepth d
          (detectSquash gwD.octo gwD.env config mc prCommits prData o r).reasoning
          none none none none none []) := by
  rw [AnalysisDepthManager.analyzeWithDepthAux.eq_def]
  simp [hsq, hdep]

/-- Helper: below the depth cap, one deep step runs the commit loop and
packages its output. -/
theorem performDeepAnalysisAux_step (f : Nat) (gwD : DeepGateway)
    (config : SquashAnalysisConfig) (mc : GitHubCommit)
    (prCommits : List GitHubCommit) (prData : PullRequestData) (o r : String)
    (sq : AggResult) (processed : List Nat) (d : Nat) (meta : AnalysisMeta)
    (hd : d < AnalysisDepthManager.maxDepth) :
    AnalysisDepthManager.performDeepAnalysisAux (f + 1) gwD config mc prCommits
        prData o r sq processed d meta =
      (let st := AnalysisDepthManager.deepCommitsLoop f gwD config prData o r d
        prCommits processed [] []
       ({ isSquash := true, confidence := sq.confidence,
          expandedCommits := st.1,
          analysisMetadata := meta.setDeepComplete st.1.length d st.2.2 },
        st.2.1)) := by
  rw [AnalysisDepthManager.performDeepAnalysisAux.eq_def,
    if_neg (Nat.not_le.mpr hd)]

/-- C6.  Shallow policy on a detected squash: the result is the shallow
emission — exactly one "Squashed Commit" node per branch commit (same shas,
same order), each carrying the squash merge commit's sha as
`metadata.squashParent` together with the detector's verdicts and
confidence — with the visited set unchanged and the result independent of
the nested-PR fetcher (no recursive fetches).  Deep policy at the top
level on the same kind of input, when no branch-commit message contains a
parenthesized PR reference: exactly one "Expanded Commit" node per branch
commit, none dropped. -/
theorem C6_expansion_counts (gwD : DeepGateway)
    (config config2 : SquashAnalysisConfig) (mc : GitHubCommit)
    (prCommits : List GitHubCommit) (prData : PullRequestData) (o r : String)
    (processed : List Nat) (d : Nat)
    (fetch2 : Nat → Option PullRequestData) :
    (config.analysisDepth = "shallow" →
     (detectSquash gwD.octo gwD.env config mc prCommits prData o r).isSquash = true →
      (AnalysisDepthManager.analyzeWithDepth gwD config mc prCommits prData o r
        processed d).2 = processed ∧
      (AnalysisDepthManager.analyzeWithDepth gwD config mc prCommits prData o r
        processed d).1.isSquash = true ∧
      (AnalysisDepthManager.analyzeWithDepth gwD config mc prCommits prData o r
        processed d).1.expandedCommits.length = prCommits.length ∧
      (AnalysisDepthManager.analyzeWithDepth gwD config mc prCommits prData o r
        processed d).1.expandedCommits.map (fun node => node.sha) =
        prCommits.map (fun c => c.sha) ∧
      (∀ node ∈ (AnalysisDepthManager.analyzeWithDepth gwD config mc prCommits
          prData o r processed d).1.expandedCommits,
        node.type = "Squashed Commit" ∧
        node.metadata.squashParent = some mc.sha ∧
        node.metadata.detectionMethods =
          some (detectSquash gwD.octo gwD.env config mc prCommits prData o r).methods ∧
        node.metadata.confidence =
          some (detectSquash gwD.octo gwD.env config mc prCommits prData o r).confidence) ∧
      AnalysisDepthManager.analyzeWithDepth ⟨gwD.octo, gwD.env, fetch2⟩ config
          mc prCommits prData o r processed d =
        AnalysisDepthManager.analyzeWithDepth gwD config mc prCommits prData o r
          processed d) ∧
    (config2.analysisDepth = "deep" →
     (detectSquash gwD.octo gwD.env config2 mc prCommits prData o r).isSquash = true →
     (∀ c ∈ prCommits, extractPrNumberFromMessage c.commit.message = none) →
      (AnalysisDepthManager.analyzeWithDepth gwD config2 mc prCommits prData o r
        processed 0).1.expandedCommits.length = prCommits.length ∧
      (AnalysisDepthManager.analyzeWithDepth gwD config2 mc prCommits prData o r
        processed 0).1.expandedCommits.map (fun node => node.sha) =
        prCommits.map (fun c => c.sha) ∧
      (∀ node ∈ (AnalysisDepthManager.analyzeWithDepth gwD config2 mc prCommits
          prData o r processed 0).1.expandedCommits,
        node.type = "Expanded Commit")) := by
  constructor
  · intro hdep hsq
    obtain ⟨octo, env, fetch⟩ := gwD
    have heq := analyzeWithDepthAux_shallow_eq (6 - d) ⟨octo, env, fetch⟩ config
      mc prCommits prData o r processed d hdep hsq
    have heq2 := analyzeWithDepthAux_shallow_eq (6 - d) ⟨octo, env, fetch2⟩ config
      mc prCommits prData o r processed d hdep hsq
    simp only [AnalysisDepthManager.analyzeWithDepth]
    rw [heq]
    refine ⟨rfl, rfl, ?_, ?_, ?_, ?_⟩
    · simp [AnalysisDepthManager.performShallowAnalysis]
    · simp [AnalysisDepthManager.performShallowAnalysis]
    · intro node hnode
      simp only [AnalysisDepthManager.performShallowAnalysis, List.mem_map] at hnode
      obtain ⟨c, _, rfl⟩ := hnode
      exact ⟨rfl, rfl, rfl, rfl⟩
    · rw [heq2]
  · intro hdep hsq hrefs
    have hlt : (0 : Nat) < AnalysisDepthManager.maxDepth := by
      simp [AnalysisDepthManager.maxDepth]
    have hchain : AnalysisDepthManager.analyzeWithDepth gwD config2 mc prCommits
        prData o r processed 0 =
        (let st := AnalysisDepthManager.deepCommitsLoop 5 gwD config2 prData o r 0
          prCommits processed [] []
         ({ isSquash := true,
            confidence := (detectSquash gwD.octo gwD.env config2 mc prCommits
              prData o r).confidence,
            expandedCommits := st.1,
            analysisMetadata :=
              (AnalysisMeta.mk (detectSquash gwD.octo gwD.env config2 mc
                  prCommits prData o r).methods config2.analysisDepth 0
                (detectSquash gwD.octo gwD.env config2 mc prCommits prData o
                  r).reasoning none none none none none
                []).setDeepComplete st.1.length 0 st.2.2 },
          st.2.1)) := by
      simp only [AnalysisDepthManager.analyzeWithDepth]
      rw [show (6 - 0 : Nat) = 5 + 1 from rfl]
      rw [analyzeWithDepthAux_deep_dispatch (5 + 1) gwD config2 mc prCommits
        prData o r processed 0 hdep hsq]
      rw [performDeepAnalysisAux_step 5 gwD config2 mc prCommits prData o r _
        processed 0 _ hlt]
    rw [hchain]
    rw [deepCommitsLoop_no_refs 5 gwD config2 prData o r 0 prCommits processed
      [] [] hrefs]
    refine ⟨?_, ?_, ?_⟩
    · simp
    · simp [AnalysisDepthManager.createCommitNode]
    · intro node hnode
      simp only [List.nil_append, List.mem_map] at hnode
      obtain ⟨c, _, rfl⟩ := hnode
      rfl

/-- C6 witness: the expansion scenario with four branch commits — shallow
config emits exactly 4 "Squashed Commit" nodes (each referencing the
squash parent `m6`), deep config on the same input (no nested PR
references) emits exactly 4 "Expanded Commit" nodes. -/
theorem C6_expansion_counts_witness :
    commitsC6.length = 4 ∧
    (AnalysisDepthManager.analyzeWithDepth gwDeepStd cfgShallowC6 mcC6
      commitsC6 prDataC6 "o" "r" [] 0).1.expandedCommits.length =
      commitsC6.length ∧
    (∀ node ∈ (AnalysisDepthManager.analyzeWithDepth gwDeepStd cfgShallowC6
        mcC6 commitsC6 prDataC6 "o" "r" [] 0).1.expandedCommits,
      node.type = "Squashed Commit" ∧
      node.metadata.squashParent = some mcC6.sha) ∧
    (AnalysisDepthManager.analyzeWithDepth gwDeepStd cfgDeepC6 mcC6
      commitsC6 prDataC6 "o" "r" [] 0).1.expandedCommits.length =
      commitsC6.length ∧
    (∀ node ∈ (AnalysisDepthManager.analyzeWithDepth gwDeepStd cfgDeepC6
        mcC6 commitsC6 prDataC6 "o" "r" [] 0).1.expandedCommits,
      node.type = "Expanded Commit") := by
  have hsqS : (detectSquash gwDeepStd.octo gwDeepStd.env cfgShallowC6 mcC6
      commitsC6 prDataC6 "o" "r").isSquash = true := by
    have hstep : detectSquash gwDeepStd.octo gwDeepStd.env cfgShallowC6 mcC6
        commitsC6 prDataC6 "o" "r" =
      crossValidateResults cfgShallowC6
        [detectViaGitHubAPIStrategy gwDeepStd.octo prDataC6 "o" "r"] := rfl
    rw [hstep]
    refine crossValidate_single_true _ _ rfl ?_ ?_ ?_
    · show (0 : ℚ) < 4/10
      norm_num
    · show (0 : ℚ) < 95/100
      norm_num
    · show (6/10 : ℚ) ≤ 95/100
      norm_num
  have hsqD : (detectSquash gwDeepStd.octo gwDeepStd.env cfgDeepC6 mcC6
      commitsC6 prDataC6 "o" "r").isSquash = true := by
    have hstep : detectSquash gwDeepStd.octo gwDeepStd.env cfgDeepC6 mcC6
        commitsC6 prDataC6 "o" "r" =
      crossValidateResults cfgDeepC6
        [detectViaGitHubAPIStrategy gwDeepStd.octo prDataC6 "o" "r"] := rfl
    rw [hstep]
    refine crossValidate_single_true _ _ rfl ?_ ?_ ?_
    · show (0 : ℚ) < 4/10
      norm_num
    · show (0 : ℚ) < 95/100
      norm_num
    · show (6/10 : ℚ) ≤ 95/100
      norm_num
  have hrefs : ∀ c ∈ commitsC6,
      extractPrNumberFromMessage c.commit.message = none := by decide
  have h := C6_expansion_counts gwDeepStd cfgShallowC6 cfgDeepC6 mcC6
    commitsC6 prDataC6 "o" "r" [] 0 (fun _ => none)
  have hs := h.1 rfl hsqS
  have hd := h.2 rfl hsqD hrefs
  exact ⟨rfl, hs.2.2.1,
    fun node hn => ⟨(hs.2.2.2.2.1 node hn).1, (hs.2.2.2.2.1 node hn).2.1⟩,
    hd.1, hd.2.2⟩

/-- Helper: `crossValidateResults` passes the collected verdict list
through unchanged as `methods`. -/
theorem crossValidate_methods (cfg : SquashAnalysisConfig)
    (results : List SquashDetectionResult) :
    (crossValidateResults cfg results).methods = results := by
  simp only [crossValidateResults]
  split
  · rename_i h
    simp only [beq_iff_eq, List.length_eq_zero] at h
    rw [h]
  · rfl

theorem api_strategy_method (octo : Octo) (prData : PullRequestData)
    (o r : String) :
    (detectViaGitHubAPIStrategy octo prData o r).method =
      "github-api-strategy" := by
  simp only [detectViaGitHubAPIStrategy]
  split <;> rfl

theorem timestamp_method (env : JsEnv) (mc : GitHubCommit)
    (prCommits : List GitHubCommit) :
    (detectViaTimestampPattern env mc prCommits).method =
      "timestamp-pattern" := by
  simp only [detectViaTimestampPattern]
  split <;> rfl

theorem author_committer_method (mc : GitHubCommit)
    (prCommits : List GitHubCommit) :
    (detectViaAuthorCommitterDiscrepancy mc prCommits).method =
      "author-committer-discrepancy" := rfl

theorem tree_structure_method (octo : Octo) (mc : GitHubCommit)
    (prCommits : List GitHubCommit) :
    (detectViaCommitTreeStructure octo mc prCommits).method =
      "commit-tree-structure" := by
  simp only [detectViaCommitTreeStructure]
  split
  · rfl
  · split
    · rfl
    · split <;> rfl

theorem events_api_method (prData : PullRequestData) :
    (detectViaGitHubEventsAPI prData).method = "github-events-api" := rfl

theorem diff_analysis_method (octo : Octo) (mc : GitHubCommit)
    (prCommits : List GitHubCommit) :
    (detectViaDiffAnalysis octo mc prCommits).method = "diff-analysis" := by
  simp only [detectViaDiffAnalysis]
  split
  · rfl
  · split <;> rfl

theorem legacy_method (mc : GitHubCommit) (prCommits : List GitHubCommit) :
    (detectViaLegacyHeuristics mc prCommits).method = "legacy-heuristics" := rfl

/-- Helper: mapping over a conditionally-extended list splits into the
mapped prefix and a conditional singleton. -/
theorem map_appendIf (f : SquashDetectionResult → String) (b : Bool)
    (l : List SquashDetectionResult) (v : SquashDetectionResult) :
    (if b = true then l ++ [v] else l).map f =
      l.map f ++ (if b = true then [f v] else []) := by
  cases b <;> simp

/-- Helper: filtering a cons splits into a conditional singleton and the
filtered tail. -/
theorem filter_cons_append (p : String → Bool) (a : String) (l : List String) :
    (a :: l).filter p = (if p a = true then [a] else []) ++ l.filter p := by
  by_cases h : p a = true <;> simp [List.filter_cons, h]

/-- C7.  `detectSquash` returns exactly one verdict per enabled algorithm:
the method names of the returned verdicts are precisely the enabled subset
of the seven algorithm names, in the fixed dispatch order (each detector is
a total function of its oracle — "never raises").  And an internal fault —
here the octokit fetch of the merge commit failing — is converted by the
catch into a negative verdict with confidence 0 whose evidence carries the
error message, for both oracle-dependent detectors guarded by an outer
catch. -/
theorem C7_one_verdict_per_method (octo : Octo) (env : JsEnv)
    (cfg : SquashAnalysisConfig) (mc : GitHubCommit)
    (prCommits : List GitHubCommit) (prData : PullRequestData)
    (o r : String) :
    ((detectSquash octo env cfg mc prCommits prData o r).methods.map
        (fun v => v.method) =
      allMethodNames.filter (fun m => cfg.enabledMethods.contains m)) ∧
    (∀ e : GhError, octo.getCommit mc.sha = Except.error e →
     1 < prCommits.length →
      (detectViaCommitTreeStructure octo mc prCommits).isSquash = false ∧
      (detectViaCommitTreeStructure octo mc prCommits).confidence = 0 ∧
      (detectViaCommitTreeStructure octo mc prCommits).evidence =
        [("error", e.message)] ∧
      (detectViaDiffAnalysis octo mc prCommits).isSquash = false ∧
      (detectViaDiffAnalysis octo mc prCommits).confidence = 0 ∧
      (detectViaDiffAnalysis octo mc prCommits).evidence =
        [("error", e.message)]) := by
  constructor
  · simp only [detectSquash, crossValidate_methods]
    rw [map_appendIf, map_appendIf, map_appendIf, map_appendIf, map_appendIf,
      map_appendIf, map_appendIf]
    simp only [allMethodNames]
    rw [filter_cons_append, filter_cons_append, filter_cons_append,
      filter_cons_append, filter_cons_append, filter_cons_append,
      filter_cons_append]
    simp only [List.map_nil, List.nil_append, List.append_assoc,
      List.filter_nil, List.append_nil, api_strategy_method, timestamp_method,
      author_committer_method, tree_structure_method, events_api_method,
      diff_analysis_method, legacy_method]
  · intro e he hlen
    have hguard : ¬(prCommits.length ≤ 1) := by omega
    have htree : detectViaCommitTreeStructure octo mc prCommits =
        { method := "commit-tree-structure", confidence := 0, isSquash := false,
          reasoning := "Tree structure analysis failed: " ++ e.message,
          evidence := [("error", e.message)], weight := 1/10 } := by
      simp only [detectViaCommitTreeStructure, if_neg hguard, he]
    have hdiff : detectViaDiffAnalysis octo mc prCommits =
        { method := "diff-analysis", confidence := 0, isSquash := false,
          reasoning := "Diff analysis failed: " ++ e.message,
          evidence := [("error", e.message)], weight := 5/100 } := by
      simp only [detectViaDiffAnalysis, if_neg hguard, he]
    exact ⟨by rw [htree], by rw [htree], by rw [htree],
      by rw [hdiff], by rw [hdiff], by rw [hdiff]⟩

/-- C7 witness: the verdict-per-method formula under the comprehensive
configuration (all seven algorithms) and the fault conversion with the
all-failing octokit oracle. -/
theorem C7_one_verdict_per_method_witness :
    ((detectSquash octoErr envStd
        (AnalysisDepthManager.getComprehensiveConfig "deep") mcC1 [c1A, c1B]
        prDataC1 "o" "r").methods.map (fun v => v.method) =
      allMethodNames.filter (fun m =>
        (AnalysisDepthManager.getComprehensiveConfig "deep").enabledMethods.contains m)) ∧
    ((detectViaCommitTreeStructure octoErr mcC1 [c1A, c1B]).isSquash = false ∧
     (detectViaCommitTreeStructure octoErr mcC1 [c1A, c1B]).confidence = 0 ∧
     (detectViaCommitTreeStructure octoErr mcC1 [c1A, c1B]).evidence =
       [("error", GhError.notFound.message)] ∧
     (detectViaDiffAnalysis octoErr mcC1 [c1A, c1B]).confidence = 0) := by
  have h := C7_one_verdict_per_method octoErr envStd
    (AnalysisDepthManager.getComprehensiveConfig "deep") mcC1 [c1A, c1B]
    prDataC1 "o" "r"
  have h2 := h.2 GhError.notFound rfl (by decide)
  exact ⟨h.1, h2.1, h2.2.1, h2.2.2.1, h2.2.2.2.2.1⟩

/-- Helper: a commit with a present, non-empty author date never consults
the environment's clock for its node date. -/
theorem jsDateOrNow_indep (env1 env2 : JsEnv) (c : GitHubCommit)
    (h : commitDateOk c = true) : jsDateOrNow env1 c = jsDateOrNow env2 c := by
  unfold commitDateOk at h
  unfold jsDateOrNow
  cases hc : c.commit.author with
  | none => rw [hc] at h; simp at h
  | some a =>
    rw [hc] at h
    simp only [bne_iff_ne, ne_eq] at h
    simp [h]

/-- Helper: the branch-commit processing step is clock-independent for
dated commits. -/
theorem processPrCommit_indep (env1 env2 : JsEnv) (b : String) (p : List Nat)
    (acc : List (String × LineageNode) × List Nat) (c : GitHubCommit)
    (h : commitDateOk c = true) :
    processPrCommit env1 b p acc c = processPrCommit env2 b p acc c := by
  unfold processPrCommit
  rw [jsDateOrNow_indep env1 env2 c h]

/-- Helper: folding the branch-commit step over dated commits is
clock-independent. -/
theorem foldl_processPrCommit_indep (env1 env2 : JsEnv) (b : String)
    (p : List Nat) :
    ∀ (commits : List GitHubCommit)
      (acc : List (String × LineageNode) × List Nat),
      (∀ c ∈ commits, commitDateOk c = true) →
      commits.foldl (processPrCommit env1 b p) acc =
        commits.foldl (processPrCommit env2 b p) acc := by
  intro commits
  induction commits with
  | nil => intro acc _; rfl
  | cons c rest ih =>
    intro acc h
    simp only [List.foldl]
    rw [processPrCommit_indep env1 env2 b p acc c (h c (List.mem_cons_self c rest))]
    exact ih _ (fun x hx => h x (List.mem_cons_of_mem _ hx))

/-- Helper: the merge-commit processing step is clock-independent for a
dated merge commit. -/
theorem processMergeCommit_indep (env1 env2 : JsEnv) (prData : PullRequestData)
    (b : String) (p : List Nat) (nodes : List (String × LineageNode))
    (q : List Nat) (mc : GitHubCommit) (h : commitDateOk mc = true) :
    processMergeCommit env1 prData b p nodes q mc =
      processMergeCommit env2 prData b p nodes q mc := by
  unfold processMergeCommit
  rw [jsDateOrNow_indep env1 env2 mc h]

/-- Helper: within one call the breaker's lastFailureTime is always the
call's own instant (or the counter is zero), so the open test agrees across
two calls with equal failure counters. -/
theorem isOpen_sync (br1 br2 : CircuitBreakerState) (now1 now2 : Int)
    (hf : br1.failures = br2.failures) (h1 : breakerSync br1 now1)
    (h2 : breakerSync br2 now2) :
    CircuitBreaker.isOpen 3 60000 br1 now1 =
      CircuitBreaker.isOpen 3 60000 br2 now2 := by
  by_cases hge : 3 ≤ br1.failures
  · have e1 : br1.lastFailureTime = now1 := by
      rcases h1 with h | h
      · omega
      · exact h
    have e2 : br2.lastFailureTime = now2 := by
      rcases h2 with h | h
      · rw [← hf] at h; omega
      · exact h
    simp [CircuitBreaker.isOpen, e1, e2, hge, hf ▸ hge]
  · have d1 : (decide (3 ≤ br1.failures)) = false := decide_eq_false hge
    have d2 : (decide (3 ≤ br2.failures)) = false := by rw [← hf]; exact d1
    simp [CircuitBreaker.isOpen, d1, d2]

/-- Helper: one loop iteration of two calls at different instants (and
different clocks) over the same frozen gateway preserves equality of the
observable state components, provided fetched commits are dated and the
breaker states are in sync with their own call instants. -/
theorem flowStep_sync (env1 env2 : JsEnv)
    (gw : Nat → Except GhError PullRequestData) (now1 now2 : Int)
    (hgw : ∀ n pd, gw n = .ok pd →
      (∀ c ∈ pd.prCommits, commitDateOk c = true) ∧
      (∀ mc2, pd.mergeCommit = some mc2 → commitDateOk mc2 = true))
    (st1 st2 : FlowState)
    (hn : st1.nodes = st2.nodes) (hq : st1.prQueue = st2.prQueue)
    (hp : st1.processedPRs = st2.processedPRs)
    (ha : st1.prsAnalyzed = st2.prsAnalyzed)
    (hf : st1.breaker.failures = st2.breaker.failures)
    (hs1 : breakerSync st1.breaker now1) (hs2 : breakerSync st2.breaker now2) :
    (flowStep env1 gw now1 st1).nodes = (flowStep env2 gw now2 st2).nodes ∧
    (flowStep env1 gw now1 st1).prQueue = (flowStep env2 gw now2 st2).prQueue ∧
    (flowStep env1 gw now1 st1).processedPRs =
      (flowStep env2 gw now2 st2).processedPRs ∧
    (flowStep env1 gw now1 st1).prsAnalyzed =
      (flowStep env2 gw now2 st2).prsAnalyzed ∧
    (flowStep env1 gw now1 st1).breaker.failures =
      (flowStep env2 gw now2 st2).breaker.failures ∧
    breakerSync (flowStep env1 gw now1 st1).breaker now1 ∧
    breakerSync (flowStep env2 gw now2 st2).breaker now2 := by
  cases hq1 : st1.prQueue with
  | nil =>
    have hq2 : st2.prQueue = [] := by rw [← hq]; exact hq1
    simp only [flowStep, hq1, hq2]
    refine ⟨?_, ?_, ?_, ?_, ?_, ?_, ?_⟩ <;>
      first
      | exact hn | exact hq | exact hp | exact ha | exact hf | exact hs1
      | exact hs2 | trivial
  | cons pr rest =>
    have hq2 : st2.prQueue = pr :: rest := by rw [← hq]; exact hq1
    simp only [flowStep, hq1, hq2]
    by_cases hc : st1.processedPRs.contains pr = true
    · have hc2 : st2.processedPRs.contains pr = true := by rw [← hp]; exact hc
      simp only [hc, hc2, reduceIte]
      refine ⟨?_, ?_, ?_, ?_, ?_, ?_, ?_⟩ <;>
        first
        | exact hn | exact hp | exact ha | exact hf | exact hs1 | exact hs2
        | trivial
    · have hcf : st1.processedPRs.contains pr = false := by
        cases hx : st1.processedPRs.contains pr
        · rfl
        · exact absurd hx hc
      have hcf2 : st2.processedPRs.contains pr = false := by rw [← hp]; exact hcf
      simp only [hcf, hcf2, Bool.false_eq_true, reduceIte]
      have hio := isOpen_sync st1.breaker st2.breaker now1 now2 hf hs1 hs2
      by_cases hopen : CircuitBreaker.isOpen 3 60000 st1.breaker now1 = true
      · have hopen2 : CircuitBreaker.isOpen 3 60000 st2.breaker now2 = true := by
          rw [← hio]; exact hopen
        have he1 : CircuitBreaker.execute 3 60000 st1.breaker now1 (gw pr) =
            (CBOutcome.circuitOpen, st1.breaker) := by
          simp [CircuitBreaker.execute, hopen]
        have he2 : CircuitBreaker.execute 3 60000 st2.breaker now2 (gw pr) =
            (CBOutcome.circuitOpen, st2.breaker) := by
          simp [CircuitBreaker.execute, hopen2]
        rw [he1, he2]
        exact ⟨hn, rfl, by rw [hp], by rw [ha], hf, hs1, hs2⟩
      · have hopen1f : CircuitBreaker.isOpen 3 60000 st1.breaker now1 = false := by
          cases hx : CircuitBreaker.isOpen 3 60000 st1.breaker now1
          · rfl
          · exact absurd hx hopen
        have hopen2f : CircuitBreaker.isOpen 3 60000 st2.breaker now2 = false := by
          rw [← hio]; exact hopen1f
        cases hgwr : gw pr with
        | error e =>
          have he1 : CircuitBreaker.execute 3 60000 st1.breaker now1
              (Except.error e : Except GhError PullRequestData) =
              (CBOutcome.opFailed e, ⟨st1.breaker.failures + 1, now1⟩) := by
            simp [CircuitBreaker.execute, hopen1f, CircuitBreaker.onFailure]
          have he2 : CircuitBreaker.execute 3 60000 st2.breaker now2
              (Except.error e : Except GhError PullRequestData) =
              (CBOutcome.opFailed e, ⟨st2.breaker.failures + 1, now2⟩) := by
            simp [CircuitBreaker.execute, hopen2f, CircuitBreaker.onFailure]
          rw [he1, he2]
          refine ⟨hn, rfl, by rw [hp], by rw [ha], ?_, Or.inr rfl, Or.inr rfl⟩
          show st1.breaker.failures + 1 = st2.breaker.failures + 1
          rw [hf]
        | ok pd =>
          have hdates := hgw pr pd hgwr
          have he1 : CircuitBreaker.execute 3 60000 st1.breaker now1
              (Except.ok pd) =
              (CBOutcome.ok pd, CircuitBreaker.onSuccess st1.breaker) := by
            simp [CircuitBreaker.execute, hopen1f]
          have he2 : CircuitBreaker.execute 3 60000 st2.breaker now2
              (Except.ok pd) =
              (CBOutcome.ok pd, CircuitBreaker.onSuccess st2.breaker) := by
            simp [CircuitBreaker.execute, hopen2f]
          rw [he1, he2]
          have hfold : pd.prCommits.foldl
              (processPrCommit env1 pd.prDetails.headRef (st1.processedPRs ++ [pr]))
              (st1.nodes, rest) =
            pd.prCommits.foldl
              (processPrCommit env2 pd.prDetails.headRef (st1.processedPRs ++ [pr]))
              (st1.nodes, rest) :=
            foldl_processPrCommit_indep env1 env2 _ _ pd.prCommits _ hdates.1
          cases hm : pd.mergeCommit with
          | none =>
            simp only [hm]
            refine ⟨?_, ?_, by rw [hp], by rw [ha], rfl, Or.inl rfl, Or.inl rfl⟩
            · show (pd.prCommits.foldl
                  (processPrCommit env1 pd.prDetails.headRef
                    (st1.processedPRs ++ [pr])) (st1.nodes, rest)).1 =
                (pd.prCommits.foldl
                  (processPrCommit env2 pd.prDetails.headRef
                    (st2.processedPRs ++ [pr])) (st2.nodes, rest)).1
              rw [← hp, ← hn, hfold]
            · show (pd.prCommits.foldl
                  (processPrCommit env1 pd.prDetails.headRef
                    (st1.processedPRs ++ [pr])) (st1.nodes, rest)).2 =
                (pd.prCommits.foldl
                  (processPrCommit env2 pd.prDetails.headRef
                    (st2.processedPRs ++ [pr])) (st2.nodes, rest)).2
              rw [← hp, ← hn, hfold]
          | some mc2 =>
            simp only [hm]
            have hmc := hdates.2 mc2 hm
            refine ⟨?_, ?_, by rw [hp], by rw [ha], rfl, Or.inl rfl, Or.inl rfl⟩
            · show (processMergeCommit env1 pd pd.prDetails.headRef
                  (st1.processedPRs ++ [pr])
                  (pd.prCommits.foldl (processPrCommit env1
                    pd.prDetails.headRef (st1.processedPRs ++ [pr]))
                    (st1.nodes, rest)).1
                  (pd.prCommits.foldl (processPrCommit env1
                    pd.prDetails.headRef (st1.processedPRs ++ [pr]))
                    (st1.nodes, rest)).2 mc2).1 =
                (processMergeCommit env2 pd pd.prDetails.headRef
                  (st2.processedPRs ++ [pr])
                  (pd.prCommits.foldl (processPrCommit env2
                    pd.prDetails.headRef (st2.processedPRs ++ [pr]))
                    (st2.nodes, rest)).1
                  (pd.prCommits.foldl (processPrCommit env2
                    pd.prDetails.headRef (st2.processedPRs ++ [pr]))
                    (st2.nodes, rest)).2 mc2).1
              rw [← hp, ← hn, hfold,
                processMergeCommit_indep env1 env2 pd pd.prDetails.headRef
                  (st1.processedPRs ++ [pr]) _ _ mc2 hmc]
            · show (processMergeCommit env1 pd pd.prDetails.headRef
                  (st1.processedPRs ++ [pr])
                  (pd.prCommits.foldl (processPrCommit env1
                    pd.prDetails.headRef (st1.processedPRs ++ [pr]))
                    (st1.nodes, rest)).1
                  (pd.prCommits.foldl (processPrCommit env1
                    pd.prDetails.headRef (st1.processedPRs ++ [pr]))
                    (st1.nodes, rest)).2 mc2).2 =
                (processMergeCommit env2 pd pd.prDetails.headRef
                  (st2.processedPRs ++ [pr])
                  (pd.prCommits.foldl (processPrCommit env2
                    pd.prDetails.headRef (st2.processedPRs ++ [pr]))
                    (st2.nodes, rest)).1
                  (pd.prCommits.foldl (processPrCommit env2
                    pd.prDetails.headRef (st2.processedPRs ++ [pr]))
                    (st2.nodes, rest)).2 mc2).2
              rw [← hp, ← hn, hfold,
                processMergeCommit_indep env1 env2 pd pd.prDetails.headRef
                  (st1.processedPRs ++ [pr]) _ _ mc2 hmc]

/-- Helper: the loop preserves the synchronization over any fuel budget,
yielding equal node maps and analyzed lists. -/
theorem flowRun_sync (env1 env2 : JsEnv)
    (gw : Nat → Except GhError PullRequestData) (now1 now2 : Int)
    (hgw : ∀ n pd, gw n = .ok pd →
      (∀ c ∈ pd.prCommits, commitDateOk c = true) ∧
      (∀ mc2, pd.mergeCommit = some mc2 → commitDateOk mc2 = true)) :
    ∀ (fuel : Nat) (st1 st2 : FlowState),
      st1.nodes = st2.nodes → st1.prQueue = st2.prQueue →
      st1.processedPRs = st2.processedPRs →
      st1.prsAnalyzed = st2.prsAnalyzed →
      st1.breaker.failures = st2.breaker.failures →
      breakerSync st1.breaker now1 → breakerSync st2.breaker now2 →
      (flowRun env1 gw now1 fuel st1).nodes =
        (flowRun env2 gw now2 fuel st2).nodes ∧
      (flowRun env1 gw now1 fuel st1).prsAnalyzed =
        (flowRun env2 gw now2 fuel st2).prsAnalyzed := by
  intro fuel
  induction fuel with
  | zero => intro st1 st2 hn _ _ ha _ _ _; exact ⟨hn, ha⟩
  | succ f ih =>
    intro st1 st2 hn hq hp ha hf hs1 hs2
    rw [flowRun, flowRun]
    by_cases he : st1.prQueue.isEmpty = true
    · have he2 : st2.prQueue.isEmpty = true := by rw [← hq]; exact he
      simp only [he, he2, reduceIte]
      exact ⟨hn, ha⟩
    · have he1f : st1.prQueue.isEmpty = false := by
        cases hx : st1.prQueue.isEmpty
        · rfl
        · exact absurd hx he
      have he2f : st2.prQueue.isEmpty = false := by rw [← hq]; exact he1f
      simp only [he1f, he2f, Bool.false_eq_true, reduceIte]
      obtain ⟨s1, s2, s3, s4, s5, s6, s7⟩ :=
        flowStep_sync env1 env2 gw now1 now2 hgw st1 st2 hn hq hp ha hf hs1 hs2
      exact ih _ _ s1 s2 s3 s4 s5 s6 s7

/-- C9 (amended).  Two top-level calls against the same frozen gateway, at
arbitrary (possibly different) wall-clock instants and with arbitrary JS
environments, produce identical outputs — summary and node list, order
included — provided every branch commit and merge commit carried by the
gateway's successful responses has a present, non-empty author date.  (The
breaker's open test is clock-independent within a call because a recorded
`lastFailureTime` is always the call's own instant; the date fallback is
the only clock observation, excluded by the hypothesis.) -/
theorem C9_deterministic_when_dates_present (env1 env2 : JsEnv)
    (now1 now2 : Int) (gw : Nat → Except GhError PullRequestData) (pr : Nat)
    (hgw : ∀ n pd, gw n = .ok pd →
      (∀ c ∈ pd.prCommits, commitDateOk c = true) ∧
      (∀ mc2, pd.mergeCommit = some mc2 → commitDateOk mc2 = true)) :
    analyzeCommitLineage env1 gw now1 pr = analyzeCommitLineage env2 gw now2 pr := by
  obtain ⟨hn, ha⟩ := flowRun_sync env1 env2 gw now1 now2 hgw 50
    (flowInitState pr) (flowInitState pr) rfl rfl rfl rfl rfl (Or.inl rfl)
    (Or.inl rfl)
  have hsum : flowSummary (flowRun env1 gw now1 50 (flowInitState pr)) =
      flowSummary (flowRun env2 gw now2 50 (flowInitState pr)) := by
    unfold flowSummary
    rw [hn, ha]
  simp only [analyzeCommitLineage, analyzeFinalState]
  rw [hsum, hn]

/-- C9 witness: the determinism statement at the concrete dated gateway
`gwC1`, two different clocks and instants. -/
theorem C9_deterministic_when_dates_present_witness :
    analyzeCommitLineage envStd gwC1 0 1 = analyzeCommitLineage envLate gwC1 5 1 := by
  apply C9_deterministic_when_dates_present
  intro n pd h
  by_cases hn : n = 1
  · subst hn
    have hpd : pd = prDataC1 := by
      simp [gwC1] at h
      exact h.symm
    subst hpd
    exact ⟨by decide, by decide⟩
  · simp [gwC1, hn] at h

end Theorems
